import Mathlib

/-!
# excel-compare: cell-by-cell comparison of two spreadsheet documents

A shallow embedding of `main.go` and the properties of its sheet comparison.

The spreadsheet library (excelize), the glob facility and the console are
collaborators of the program: they are represented by the values they hand
back (`File`, `Env`) and by a log of the calls the program makes (`Event`).
Go strings are represented by `String` and slices by `List`. Go's `int` is
taken as 64 bits wide: `getCellVal`, which any caller may hand any `int`,
computes with `wrapInt`. The positions counted by the loops are natural
numbers, bounded by the lengths of the slices.
-/

namespace ExcelCompare

/-! ## Data model -/

/-- An error value: one built by `errors.New` in `main.go`, or one handed back
by a collaborator (spreadsheet library, glob facility). -/
inductive Error where
  | New (text : String)
  | collaborator (detail : String)
  deriving DecidableEq

/-- `type CellDiff struct` of `main.go`. -/
structure CellDiff where
  Cell : String
  Row : Int
  Col : Int
  ValA : String
  ValB : String
  deriving DecidableEq

/-- The package-level variables `sheet`, `shouldPrintDiff`, `shouldColorSheet`
and `color` with their initial values. -/
structure Config where
  sheet : String := "Sheet1"
  shouldPrintDiff : Bool := false
  shouldColorSheet : Bool := false
  color : String := "E0EBF5"
  deriving DecidableEq

/-- `excelize.Fill`, the fields the program sets. -/
structure Fill where
  Typ : String
  Color : List String
  Pattern : Int
  deriving DecidableEq

/-- `excelize.Style`, the field the program sets. -/
structure Style where
  Fill : Fill
  deriving DecidableEq

/-- The two documents of one comparison: `a` and `b` of `compareSheets`. -/
inductive Doc where
  | A
  | B
  deriving DecidableEq

/-- One call made to a collaborator, with the result where the program
depends on it. -/
inductive Event where
  | Glob (pattern : String)
  | OpenFile (doc : Doc) (path : String)
  | GetSheetDimension (doc : Doc) (sheet : String)
  | Rows (doc : Doc) (sheet : String)
  | Next (doc : Doc) (more : Bool)
  | Columns (doc : Doc)
  | Close (doc : Doc)
  | NewStyle (doc : Doc) (style : Style) (res : Error ⊕ Int)
  | SetCellStyle (doc : Doc) (sheet hcell vcell : String) (styleID : Int)
      (res : Option Error)
  | SaveAs (doc : Doc) (path : String) (res : Option Error)
  | Print (text : String)
  deriving DecidableEq

/-- An opened document (`*excelize.File`) as the program sees it.
`GetSheetDimension` and `Rows` give the content of a sheet: the dimension
descriptor, and the rows the iterator yields, each with the result of its
`Columns()` call. `NewStyle`, `SetCellStyle` and `SaveAs` change the document,
so their result may depend on the calls made before (the log). -/
structure File where
  GetSheetDimension : String → Except Error String
  Rows : String → Except Error (List (Except Error (List String)))
  NewStyle : List Event → Style → Except Error Int
  SetCellStyle : List Event → String → String → String → Int → Option Error
  SaveAs : List Event → String → Option Error

/-- The file system as the program sees it: `filepath.Glob` and
`excelize.OpenFile`. -/
structure Env where
  Glob : String → Except Error (List String)
  OpenFile : String → Except Error File

/-- The results `(diff, err)` of `compareSheets` and `compareFiles`, with the
log of collaborator calls after the call. A nil slice is the empty list. -/
structure Ret where
  diff : List CellDiff
  err : Option Error
  log : List Event
  deriving DecidableEq

/-! ## getCellVal -/

/-- Go's conversion `string(v)` of an integer: the UTF-8 text of the code point
`v`, and U+FFFD when `v` is not a valid code point. -/
def intToString (v : Int) : String :=
  if 0 ≤ v ∧ v < 0xD800 ∨ 0xE000 ≤ v ∧ v ≤ 0x10FFFF then
    String.singleton (Char.ofNat v.toNat)
  else String.singleton (Char.ofNat 0xFFFD)

/-- The digit loop of `%d`: the decimal digits of `n` are put in front of
`acc`, last digit first. -/
def fmtDigits : Nat → Nat → List Char → List Char
  | 0, _, acc => acc
  | fuel + 1, n, acc =>
    if n / 10 = 0 then Char.ofNat (48 + n % 10) :: acc
    else fmtDigits fuel (n / 10) (Char.ofNat (48 + n % 10) :: acc)

/-- The verb `%d` of `fmt.Sprintf` at an `int`. -/
def fmtInt (v : Int) : String :=
  if v < 0 then String.mk ('-' :: fmtDigits (v.natAbs + 1) v.natAbs [])
  else String.mk (fmtDigits (v.natAbs + 1) v.natAbs [])

/-- The value of an `int` expression whose exact result is `v`: signed 64-bit
arithmetic wraps around. -/
def wrapInt (v : Int) : Int :=
  (v + 9223372036854775808) % 18446744073709551616 - 9223372036854775808

/-- `func getCellVal(row, col int) string`:
`fmt.Sprintf("%s%d", string('A'+col), row+1)`. -/
def getCellVal (row col : Int) : String :=
  intToString (wrapInt (65 + col)) ++ fmtInt (wrapInt (row + 1))

/-! ## compareSheets -/

/-- The style value built in `compareSheets`. -/
def fillStyle (color : String) : Style :=
  { Fill := { Typ := "pattern", Color := [color], Pattern := 1 } }

/-- The inner loop of `compareSheets`, `for col := 0; col < len(aCols); col++`,
from column `col` on; the two lists are the cells from that column on. The
caller has checked `len(aCols) == len(bCols)`, so the second case is not
reached. -/
def colLoop (cfg : Config) (b : File) (sheetB : String) (row : Nat) :
    Nat → List String → List String → List CellDiff → List Event → Ret
  | _, [], _, diff, log => ⟨diff, none, log⟩
  | _, _ :: _, [], diff, log => ⟨diff, none, log⟩
  | col, aVal :: aCols, bVal :: bCols, diff, log =>
    if aVal ≠ bVal then
      let diff1 := diff ++ [⟨getCellVal row col, row, col, aVal, bVal⟩]
      if cfg.shouldColorSheet then
        match b.NewStyle log (fillStyle cfg.color) with
        | .error e =>
          ⟨[], some e, log ++ [.NewStyle .B (fillStyle cfg.color) (.inl e)]⟩
        | .ok s =>
          let log1 := log ++ [.NewStyle .B (fillStyle cfg.color) (.inr s)]
          match b.SetCellStyle log1 sheetB (getCellVal row col) (getCellVal row col) s with
          | some e =>
            ⟨[], some e, log1 ++ [.SetCellStyle .B sheetB (getCellVal row col)
              (getCellVal row col) s (some e)]⟩
          | none =>
            colLoop cfg b sheetB row (col + 1) aCols bCols diff1
              (log1 ++ [.SetCellStyle .B sheetB (getCellVal row col)
                (getCellVal row col) s none])
      else colLoop cfg b sheetB row (col + 1) aCols bCols diff1 log
    else colLoop cfg b sheetB row (col + 1) aCols bCols diff log

/-- The outer loop of `compareSheets`, `for aRows.Next() && bRows.Next()`, from
row `row` on; the two lists are the rows the iterators have not yielded yet. -/
def rowLoop (cfg : Config) (b : File) (sheetB : String) :
    Nat → List (Except Error (List String)) → List (Except Error (List String)) →
    List CellDiff → List Event → Ret
  | _, [], _, diff, log => ⟨diff, none, log ++ [.Next .A false]⟩
  | _, _ :: _, [], diff, log => ⟨diff, none, log ++ [.Next .A true, .Next .B false]⟩
  | row, ra :: aRows, rb :: bRows, diff, log =>
    match ra with
    | .error e => ⟨[], some e, log ++ [.Next .A true, .Next .B true, .Columns .A]⟩
    | .ok aCols =>
      match rb with
      | .error e =>
        ⟨[], some e, log ++ [.Next .A true, .Next .B true, .Columns .A, .Columns .B]⟩
      | .ok bCols =>
        if aCols.length ≠ bCols.length then
          ⟨[], some (.New "Found row size that doesn\x27t match"),
            log ++ [.Next .A true, .Next .B true, .Columns .A, .Columns .B]⟩
        else
          match colLoop cfg b sheetB row 0 aCols bCols diff
              (log ++ [.Next .A true, .Next .B true, .Columns .A, .Columns .B]) with
          | ⟨_, some e, log1⟩ => ⟨[], some e, log1⟩
          | ⟨diff1, none, log1⟩ => rowLoop cfg b sheetB (row + 1) aRows bRows diff1 log1

/-- `func compareSheets(a, b *excelize.File, sheetA, sheetB string)`, started
with the log `log`. The deferred `Close` calls are logged at the return. The
test `if err != nil` after the style value is built has no case here: `err` is
nil at that point. -/
def compareSheets (cfg : Config) (a b : File) (sheetA sheetB : String)
    (log : List Event) : Ret :=
  match a.GetSheetDimension sheetA with
  | .error e => ⟨[], some e, log ++ [.GetSheetDimension .A sheetA]⟩
  | .ok aDim =>
    match b.GetSheetDimension sheetB with
    | .error e =>
      ⟨[], some e, log ++ [.GetSheetDimension .A sheetA, .GetSheetDimension .B sheetB]⟩
    | .ok bDim =>
      if aDim ≠ bDim then
        ⟨[], some (.New "dimensions don\x27t match"),
          log ++ [.GetSheetDimension .A sheetA, .GetSheetDimension .B sheetB]⟩
      else
        match a.Rows sheetA with
        | .error e =>
          ⟨[], some e, log ++ [.GetSheetDimension .A sheetA, .GetSheetDimension .B sheetB,
            .Rows .A sheetA]⟩
        | .ok aRows =>
          match b.Rows sheetB with
          | .error e =>
            ⟨[], some e, log ++ [.GetSheetDimension .A sheetA, .GetSheetDimension .B sheetB,
              .Rows .A sheetA, .Rows .B sheetB, .Close .A]⟩
          | .ok bRows =>
            match rowLoop cfg b sheetB 0 aRows bRows []
                (log ++ [.GetSheetDimension .A sheetA, .GetSheetDimension .B sheetB,
                  .Rows .A sheetA, .Rows .B sheetB]) with
            | ⟨diff, err, log1⟩ => ⟨diff, err, log1 ++ [.Close .B, .Close .A]⟩

/-! ## compareFiles -/

/-- Go's `strings.HasPrefix` on the characters of two strings. -/
def hasPrefix : List Char → List Char → Bool
  | _, [] => true
  | [], _ :: _ => false
  | c :: s, d :: p => c == d && hasPrefix s p

/-- The scan of `strings.ReplaceAll` for a non-empty `old`: `skip` characters
of an occurrence already replaced are still to be passed over; then the
occurrences of `old` are replaced from left to right, without overlap. -/
def replaceFrom (old new : List Char) : Nat → List Char → List Char
  | _, [] => []
  | skip + 1, _ :: s => replaceFrom old new skip s
  | 0, c :: s =>
    if hasPrefix (c :: s) old then new ++ replaceFrom old new (old.length - 1) s
    else c :: replaceFrom old new 0 s

/-- Go's `strings.ReplaceAll(s, old, new)`. An empty `old` matches at the
beginning of the string and after each character. -/
def ReplaceAll (s old new : String) : String :=
  if old.data = [] then String.mk (new.data ++ s.data.flatMap (fun c => c :: new.data))
  else String.mk (replaceFrom old.data new.data 0 s.data)

/-- `func compareFiles(fileA, fileB string, sheetA, sheetB string)`, started
with the log `log`. -/
def compareFiles (cfg : Config) (env : Env) (fileA fileB sheetA sheetB : String)
    (log : List Event) : Ret :=
  match env.OpenFile fileA with
  | .error e => ⟨[], some e, log ++ [.OpenFile .A fileA]⟩
  | .ok a =>
    match env.OpenFile fileB with
    | .error e => ⟨[], some e, log ++ [.OpenFile .A fileA, .OpenFile .B fileB]⟩
    | .ok b =>
      match compareSheets cfg a b sheetA sheetB
          (log ++ [.OpenFile .A fileA, .OpenFile .B fileB]) with
      | ⟨diff, some e, log1⟩ => ⟨diff, some e, log1⟩
      | ⟨diff, none, log1⟩ =>
        if cfg.shouldColorSheet && decide (diff.length > 0) then
          match b.SaveAs log1 (ReplaceAll fileB ".xlsx" ".diff.xlsx") with
          | some e =>
            ⟨[], some e, log1 ++ [.SaveAs .B (ReplaceAll fileB ".xlsx" ".diff.xlsx") (some e)]⟩
          | none =>
            ⟨diff, none, log1 ++ [.SaveAs .B (ReplaceAll fileB ".xlsx" ".diff.xlsx") none]⟩
        else ⟨diff, none, log1⟩

/-! ## run -/

/-- How `run` ends: it returns `err`, or an index expression panics. -/
inductive RunResult where
  | returned (err : Option Error)
  | panicked (text : String)
  deriving DecidableEq

/-- The end of `run` with the log of collaborator calls. -/
structure RunRet where
  result : RunResult
  log : List Event
  deriving DecidableEq

/-- `func expandGlobs(patterns []string) (res []string, err error)`: the loop
over the patterns, with the matches found so far in `res`. -/
def expandGlobs (env : Env) : List String → List String → List Event →
    Except Error (List String) × List Event
  | [], res, log => (.ok res, log)
  | pattern :: patterns, res, log =>
    match env.Glob pattern with
    | .error e => (.error e, log ++ [.Glob pattern])
    | .ok found => expandGlobs env patterns (res ++ found) (log ++ [.Glob pattern])

/-- The lines `run` prints for one compared pair. -/
def report (cfg : Config) (diff : List CellDiff) : List Event :=
  if cfg.shouldPrintDiff then
    diff.map (fun d => .Print (d.Cell ++ " (" ++ fmtInt d.Row ++ ", " ++ fmtInt d.Col ++
      "): \x27" ++ d.ValA ++ "\x27 != \x27" ++ d.ValB ++ "\x27\n"))
  else if diff.length > 0 then
    [.Print ("found " ++ fmtInt diff.length ++ " differences in \x27" ++ cfg.sheet ++ "\x27\n")]
  else [.Print "Files were the same\n"]

/-- The loop of `run`, `for i := 0; i < len(filesA); i++`, from index `i` on;
the first list holds `filesA[i:]`, and `filesB` is indexed by `i`. -/
def pairLoop (cfg : Config) (env : Env) (filesB : List String) :
    Nat → List String → List Event → RunRet
  | _, [], log => ⟨.returned none, log⟩
  | i, fileA :: rest, log =>
    match filesB[i]? with
    | none =>
      ⟨.panicked ("runtime error: index out of range [" ++ fmtInt i ++ "] with length " ++
        fmtInt filesB.length), log⟩
    | some fileB =>
      match compareFiles cfg env fileA fileB cfg.sheet cfg.sheet
          (log ++ [.Print ("comparing " ++ fileA ++ " with " ++ fileB ++ "\n")]) with
      | ⟨_, some e, log1⟩ => ⟨.returned (some e), log1⟩
      | ⟨diff, none, log1⟩ => pairLoop cfg env filesB (i + 1) rest (log1 ++ report cfg diff)

/-- `func run() (err error)`; `filesA` and `filesB` are the values of the two
repeatable flags `-a` and `-b`. -/
def run (cfg : Config) (env : Env) (filesA filesB : List String) : RunRet :=
  if filesA.length = 0 ∨ filesB.length = 0 then
    ⟨.returned (some (.New "Must specify at least one file for each side")), []⟩
  else if filesA.length ≠ filesB.length then
    ⟨.returned (some (.New "Length of files to compare don\x27t match")), []⟩
  else
    match expandGlobs env filesA [] [] with
    | (.error e, log) => ⟨.returned (some e), log⟩
    | (.ok expandedA, log) =>
      match expandGlobs env filesB [] log with
      | (.error e, log1) => ⟨.returned (some e), log1⟩
      | (.ok expandedB, log1) => pairLoop cfg env expandedB 0 expandedA log1

/-! ## Vocabulary of the properties -/

/-- The document holds, under the name `sheet`, a sheet with the dimension
descriptor `dim` whose row iterator yields the rows `rows`. -/
def HasSheet (f : File) (sheet dim : String) (rows : List (List String)) : Prop :=
  f.GetSheetDimension sheet = .ok dim ∧ f.Rows sheet = .ok (rows.map .ok)

/-- The value of the cell in row `r` and column `c`, both counted from 0. -/
def cellAt (rows : List (List String)) (r c : Nat) : Option String :=
  match rows[r]? with
  | none => none
  | some cols => cols[c]?

/-- Row-major order of two records: an earlier row, or the same row and an
earlier column. -/
def CellDiff.before (d e : CellDiff) : Prop :=
  d.Row < e.Row ∨ (d.Row = e.Row ∧ d.Col < e.Col)

/-- The records of one row pair from column `col` on, left to right. -/
def rowDiffsFrom (row : Nat) : Nat → List String → List String → List CellDiff
  | _, [], _ => []
  | _, _ :: _, [] => []
  | col, aVal :: aCols, bVal :: bCols =>
    (if aVal ≠ bVal then [⟨getCellVal row col, row, col, aVal, bVal⟩] else []) ++
      rowDiffsFrom row (col + 1) aCols bCols

/-- The records of the row pairs from row `row` on, top to bottom. -/
def sheetDiffsFrom : Nat → List (List String) → List (List String) → List CellDiff
  | _, [], _ => []
  | _, _ :: _, [] => []
  | row, ra :: aRows, rb :: bRows =>
    rowDiffsFrom row 0 ra rb ++ sheetDiffsFrom (row + 1) aRows bRows

/-- The number a list of decimal digits denotes, read from the left, starting
from the value `v` of the digits already read. -/
def decimalFold (v : Nat) (digits : List Char) : Nat :=
  digits.foldl (fun v d => 10 * v + (d.toNat - 48)) v

/-- The number a list of decimal digits denotes. -/
def decimalValue (digits : List Char) : Nat := decimalFold 0 digits

/-- The calls that create or apply a style. -/
def isStyleOp : Event → Bool
  | .NewStyle _ _ _ => true
  | .SetCellStyle _ _ _ _ _ _ => true
  | _ => false

/-- The calls that open or advance a row iterator or read the cells of a row. -/
def isRowRead : Event → Bool
  | .Rows _ _ => true
  | .Next _ _ => true
  | .Columns _ => true
  | _ => false

/-- The style calls of a log, in order. -/
def styleOps (log : List Event) : List Event := log.filter isStyleOp

/-- Corresponding rows of the two lists have equal cell counts. -/
def sameWidths : List (List String) → List (List String) → Bool
  | [], _ => true
  | _ :: _, [] => true
  | ra :: rowsA, rb :: rowsB => decide (ra.length = rb.length) && sameWidths rowsA rowsB

/-- The calls that save a document. -/
def isSave : Event → Bool
  | .SaveAs _ _ _ => true
  | _ => false

/-- The save calls of a log, in order. -/
def saves (log : List Event) : List Event := log.filter isSave

/-- The characters `p` occur somewhere in the characters `s`. -/
def occursIn (p : List Char) : List Char → Bool
  | [] => hasPrefix [] p
  | c :: s => hasPrefix (c :: s) p || occursIn p s

/-- The two style calls that highlight one record in sheet `sheetB` of B:
a new style, a pattern fill of kind 1 in the one color `color`, is registered
and handed back as `p.2`, and is set on the cell `p.1.Cell`. -/
def highlightCalls (color sheetB : String) (p : CellDiff × Int) : List Event :=
  [.NewStyle .B { Fill := { Typ := "pattern", Color := [color], Pattern := 1 } } (.inr p.2),
   .SetCellStyle .B sheetB p.1.Cell p.1.Cell p.2 none]

/-- The style calls that handed back an error. -/
def isStyleFailure : Event → Bool
  | .NewStyle _ _ (.inl _) => true
  | .SetCellStyle _ _ _ _ _ (some _) => true
  | _ => false

/-- The failed style calls of a log, in order. -/
def styleFailures (log : List Event) : List Event := log.filter isStyleFailure

/-- What a part of `compareSheets` started with the log `log` has come to in
`r`: either no style call failed, and the result is the list `diff` with the
error `err`; or one style call failed, which ended the call with an error and
no differences. -/
def LoopOutcome (r : Ret) (diff : List CellDiff) (err : Option Error)
    (log : List Event) : Prop :=
  (r.err = err ∧ r.diff = diff ∧ styleFailures r.log = styleFailures log) ∨
  (r.err ≠ none ∧ r.diff = [] ∧ ∃ ev, styleFailures r.log = styleFailures log ++ [ev])

/-! ## Example inputs -/

/-- A document whose sheets all have the dimension descriptor `dim` and the
rows `rows`; its style operations and saves succeed, and a new style gets the
number of calls logged before it. -/
def sheetFile (dim : String) (rows : List (List String)) : File :=
  { GetSheetDimension := fun _ => .ok dim
    Rows := fun _ => .ok (rows.map .ok)
    NewStyle := fun log _ => .ok log.length
    SetCellStyle := fun _ _ _ _ _ => none
    SaveAs := fun _ _ => none }

/-- A cell reference of one or more letters followed by one or more digits. -/
def validCellName (s : String) : Bool :=
  !(s.data.takeWhile Char.isAlpha).isEmpty && !(s.data.dropWhile Char.isAlpha).isEmpty &&
    (s.data.dropWhile Char.isAlpha).all Char.isDigit

/-- A document like `sheetFile dim rows` that refuses to style a cell whose
reference is not letters followed by digits. -/
def strictFile (dim : String) (rows : List (List String)) : File :=
  { GetSheetDimension := fun _ => .ok dim
    Rows := fun _ => .ok (rows.map .ok)
    NewStyle := fun log _ => .ok log.length
    SetCellStyle := fun _ _ hcell vcell _ =>
      if validCellName hcell && validCellName vcell then none
      else some (.collaborator "invalid cell name")
    SaveAs := fun _ _ => none }

/-- A row of 26 cells "x" followed by the cell `last`, in column 26. -/
def wideRow (last : String) : List String := List.replicate 26 "x" ++ [last]

/-- The configuration after `-color-sheet`. -/
def colorCfg : Config := { shouldColorSheet := true }

/-- The configuration without flags. -/
def plainCfg : Config := {}

/-- A file system in which the path "a.xlsx" holds the one-cell sheet "x" and
every other path the one-cell sheet "y"; a pattern matches itself, and
"a*.xlsx" matches "a1.xlsx" and "a2.xlsx". -/
def twoFilesEnv : Env :=
  { Glob := fun p => if p = "a*.xlsx" then .ok ["a1.xlsx", "a2.xlsx"] else .ok [p]
    OpenFile := fun p =>
      if p = "a.xlsx" then .ok (sheetFile "A1:A1" [["x"]]) else .ok (sheetFile "A1:A1" [["y"]]) }

/-- A file system in which every path holds the one-cell sheet "x". -/
def sameFilesEnv : Env :=
  { Glob := fun p => if p = "a*.xlsx" then .ok ["a1.xlsx", "a2.xlsx"] else .ok [p]
    OpenFile := fun _ => .ok (sheetFile "A1:A1" [["x"]]) }

/-! ## getCellVal -/

theorem digitChar_spec (k : Nat) (hk : k < 10) :
    (Char.ofNat (48 + k)).isDigit = true ∧ (Char.ofNat (48 + k)).toNat = 48 + k := by
  interval_cases k <;> decide

theorem fmtDigits_isDigit (fuel : Nat) : ∀ (n : Nat) (acc : List Char),
    (∀ d ∈ acc, d.isDigit = true) → ∀ d ∈ fmtDigits fuel n acc, d.isDigit = true := by
  induction fuel with
  | zero => intro n acc h; simpa [fmtDigits] using h
  | succ fuel ih =>
    intro n acc h
    have hd := (digitChar_spec (n % 10) (Nat.mod_lt _ (by norm_num))).1
    have hacc : ∀ d ∈ Char.ofNat (48 + n % 10) :: acc, d.isDigit = true := by
      intro d hmem
      rcases List.mem_cons.mp hmem with rfl | hmem
      · exact hd
      · exact h d hmem
    unfold fmtDigits
    split_ifs with h0
    · exact hacc
    · exact ih _ _ hacc

theorem decimalFold_cons (v : Nat) (d : Char) (digits : List Char) :
    decimalFold v (d :: digits) = decimalFold (10 * v + (d.toNat - 48)) digits := rfl

theorem fmtDigits_value (fuel : Nat) : ∀ (n : Nat) (acc : List Char), n < 10 ^ fuel →
    decimalFold 0 (fmtDigits fuel n acc) = decimalFold n acc := by
  induction fuel with
  | zero =>
    intro n acc h
    have : n = 0 := by simpa using h
    subst this; rfl
  | succ fuel ih =>
    intro n acc h
    have hd := (digitChar_spec (n % 10) (Nat.mod_lt _ (by norm_num))).2
    unfold fmtDigits
    split_ifs with h0
    · rw [decimalFold_cons, hd]
      congr 1
      omega
    · rw [ih (n / 10) _ (by rw [pow_succ] at h; omega), decimalFold_cons, hd]
      congr 1
      omega

theorem fmtDigits_head (fuel : Nat) : ∀ (n : Nat) (acc : List Char), 0 < n → n < 10 ^ fuel →
    ∃ d rest, fmtDigits fuel n acc = d :: rest ∧ d ≠ '0' := by
  induction fuel with
  | zero => intro n acc h0 h; simp at h; omega
  | succ fuel ih =>
    intro n acc hpos h
    have hd := (digitChar_spec (n % 10) (Nat.mod_lt _ (by norm_num))).2
    unfold fmtDigits
    split_ifs with h0
    · refine ⟨_, _, rfl, ?_⟩
      intro hc
      rw [hc] at hd
      have : ('0' : Char).toNat = 48 := by decide
      omega
    · exact ih (n / 10) _ (by omega) (by rw [pow_succ] at h; omega)

theorem lt_ten_pow_succ (n : Nat) : n < 10 ^ (n + 1) :=
  lt_trans (Nat.lt_pow_self (by norm_num) n) (Nat.pow_lt_pow_right (by norm_num) (Nat.lt_succ_self n))

theorem wrapInt_of_int (v : Int) (hlo : -9223372036854775808 ≤ v)
    (hhi : v < 9223372036854775808) : wrapInt v = v := by
  unfold wrapInt
  omega

theorem intToString_letter (col : Int) (h0 : 0 ≤ col) (h25 : col ≤ 25) :
    ∃ letter : Char, intToString (wrapInt (65 + col)) = String.mk [letter] ∧
      letter.toNat = 'A'.toNat + col.toNat ∧ letter.isUpper = true := by
  rw [wrapInt_of_int _ (by omega) (by omega)]
  interval_cases col <;> exact ⟨_, rfl, by decide, by decide⟩

/-- C4, as stated, fails: row 9223372036854775807 is a row >= 0 and column 0
is in 0..25, but `row+1` wraps around and `getCellVal` prints a minus sign:
the result is not the letter followed by the decimal representation
"9223372036854775808" of row+1. -/
theorem getCellVal_wraps_at_the_largest_row :
    (0 : Int) ≤ 9223372036854775807 ∧
    getCellVal 9223372036854775807 0 = "A-9223372036854775808" ∧
    getCellVal 9223372036854775807 0 ≠ "A9223372036854775808" := by
  decide

/-- C4, amended: for every row with 0 <= row < 9223372036854775807 (so that
row+1 is an `int`) and every column 0..25, `getCellVal row col` is one
upper-case letter, the one at offset `col` from 'A', followed by the decimal
representation of `row + 1` (a non-empty list of decimal digits without a
leading zero that denotes `row + 1`); and `getCellVal 0 0 = "A1"`,
`getCellVal 4 2 = "C5"`, `getCellVal 0 25 = "Z1"`. -/
theorem getCellVal_letter_decimal (row col : Int) (hrow : 0 ≤ row)
    (hmax : row < 9223372036854775807) (hcol0 : 0 ≤ col) (hcol : col ≤ 25) :
    (∃ letter : Char, ∃ digits : List Char,
      getCellVal row col = String.mk (letter :: digits) ∧
      letter.toNat = 'A'.toNat + col.toNat ∧ letter.isUpper = true ∧
      (∀ d ∈ digits, d.isDigit = true) ∧ digits.head? ≠ some '0' ∧ digits ≠ [] ∧
      (decimalValue digits : Int) = row + 1) ∧
    getCellVal 0 0 = "A1" ∧ getCellVal 4 2 = "C5" ∧ getCellVal 0 25 = "Z1" := by
  refine ⟨?_, by decide, by decide, by decide⟩
  obtain ⟨letter, hl, hnat, hup⟩ := intToString_letter col hcol0 hcol
  have hwrap : wrapInt (row + 1) = row + 1 := wrapInt_of_int _ (by omega) (by omega)
  have hneg : ¬ (row + 1 < 0) := by omega
  have hpos : 0 < (row + 1).natAbs := by omega
  obtain ⟨d, rest, hhead, hd0⟩ :=
    fmtDigits_head ((row + 1).natAbs + 1) (row + 1).natAbs [] hpos (lt_ten_pow_succ _)
  refine ⟨letter, fmtDigits ((row + 1).natAbs + 1) (row + 1).natAbs [], ?_, hnat, hup,
    fmtDigits_isDigit _ _ _ (by simp), ?_, ?_, ?_⟩
  · simp only [getCellVal, hl, hwrap, fmtInt, if_neg hneg]
    rfl
  · rw [hhead]
    simpa using hd0
  · rw [hhead]; simp
  · unfold decimalValue
    rw [fmtDigits_value _ _ _ (lt_ten_pow_succ _)]
    simp only [decimalFold, List.foldl_nil]
    omega

theorem getCellVal_letter_decimal_witness :
    ((0 : Int) ≤ 9223372036854775806 ∧ (9223372036854775806 : Int) < 9223372036854775807 ∧
      (0 : Int) ≤ 25 ∧ (25 : Int) ≤ 25) ∧
    ((∃ letter : Char, ∃ digits : List Char,
      getCellVal 9223372036854775806 25 = String.mk (letter :: digits) ∧
      letter.toNat = 'A'.toNat + (25 : Int).toNat ∧ letter.isUpper = true ∧
      (∀ d ∈ digits, d.isDigit = true) ∧ digits.head? ≠ some '0' ∧ digits ≠ [] ∧
      (decimalValue digits : Int) = 9223372036854775806 + 1) ∧
    getCellVal 0 0 = "A1" ∧ getCellVal 4 2 = "C5" ∧ getCellVal 0 25 = "Z1") :=
  ⟨⟨by decide, by decide, by decide, by decide⟩,
    getCellVal_letter_decimal 9223372036854775806 25 (by decide) (by decide) (by decide)
      (by decide)⟩

/-! ## The records of a sheet pair -/

theorem mem_rowDiffsFrom (row : Nat) : ∀ (aCols bCols : List String) (col : Nat) (d : CellDiff),
    d ∈ rowDiffsFrom row col aCols bCols ↔
      ∃ (k : Nat) (va vb : String), aCols[k]? = some va ∧ bCols[k]? = some vb ∧ va ≠ vb ∧
        d = ⟨getCellVal row ((col + k : Nat) : Int), row, ((col + k : Nat) : Int), va, vb⟩ := by
  intro aCols
  induction aCols with
  | nil => intro bCols col d; simp [rowDiffsFrom]
  | cons aVal aCols ih =>
    intro bCols col d
    cases bCols with
    | nil => simp [rowDiffsFrom]
    | cons bVal bCols =>
      rw [rowDiffsFrom, List.mem_append, ih bCols (col + 1) d]
      constructor
      · rintro (h | ⟨k, va, vb, ha, hb, hne, hd⟩)
        · by_cases hne : aVal ≠ bVal
          · rw [if_pos hne, List.mem_singleton] at h
            exact ⟨0, aVal, bVal, by simp, by simp, hne, by simpa using h⟩
          · rw [if_neg hne] at h
            exact absurd h (List.not_mem_nil _)
        · refine ⟨k + 1, va, vb, by simpa using ha, by simpa using hb, hne, ?_⟩
          rw [hd, show col + 1 + k = col + (k + 1) by omega]
      · rintro ⟨k, va, vb, ha, hb, hne, hd⟩
        cases k with
        | zero =>
          left
          simp only [List.getElem?_cons_zero, Option.some.injEq] at ha hb
          subst ha hb
          rw [if_pos hne, List.mem_singleton]
          simpa using hd
        | succ k =>
          right
          refine ⟨k, va, vb, by simpa using ha, by simpa using hb, hne, ?_⟩
          rw [hd, show col + 1 + k = col + (k + 1) by omega]

theorem pairwise_rowDiffsFrom (row : Nat) : ∀ (aCols bCols : List String) (col : Nat),
    (rowDiffsFrom row col aCols bCols).Pairwise CellDiff.before := by
  intro aCols
  induction aCols with
  | nil => intro bCols col; simp [rowDiffsFrom]
  | cons aVal aCols ih =>
    intro bCols col
    cases bCols with
    | nil => simp [rowDiffsFrom]
    | cons bVal bCols =>
      rw [rowDiffsFrom, List.pairwise_append]
      refine ⟨?_, ih bCols (col + 1), ?_⟩
      · split_ifs <;> simp
      · intro x hx y hy
        split_ifs at hx with hne
        · rw [List.mem_singleton] at hx
          obtain ⟨k, va, vb, -, -, -, hy⟩ := (mem_rowDiffsFrom row aCols bCols (col + 1) y).mp hy
          subst hx hy
          right
          refine ⟨rfl, ?_⟩
          show (col : Int) < ((col + 1 + k : Nat) : Int)
          omega
        · exact absurd hx (List.not_mem_nil _)

theorem mem_sheetDiffsFrom : ∀ (rowsA rowsB : List (List String)) (row : Nat) (d : CellDiff),
    d ∈ sheetDiffsFrom row rowsA rowsB ↔
      ∃ (j c : Nat) (va vb : String), cellAt rowsA j c = some va ∧ cellAt rowsB j c = some vb ∧
        va ≠ vb ∧ d = ⟨getCellVal ((row + j : Nat) : Int) c, ((row + j : Nat) : Int), c, va, vb⟩ := by
  intro rowsA
  induction rowsA with
  | nil => intro rowsB row d; simp [sheetDiffsFrom, cellAt]
  | cons ra rowsA ih =>
    intro rowsB row d
    cases rowsB with
    | nil => simp [sheetDiffsFrom, cellAt]
    | cons rb rowsB =>
      rw [sheetDiffsFrom, List.mem_append, ih rowsB (row + 1) d, mem_rowDiffsFrom]
      constructor
      · rintro (⟨k, va, vb, ha, hb, hne, hd⟩ | ⟨j, c, va, vb, ha, hb, hne, hd⟩)
        · refine ⟨0, k, va, vb, by simpa [cellAt] using ha, by simpa [cellAt] using hb, hne, ?_⟩
          simpa using hd
        · refine ⟨j + 1, c, va, vb, by simpa [cellAt] using ha, by simpa [cellAt] using hb,
            hne, ?_⟩
          rw [hd, show row + 1 + j = row + (j + 1) by omega]
      · rintro ⟨j, c, va, vb, ha, hb, hne, hd⟩
        cases j with
        | zero =>
          left
          refine ⟨c, va, vb, by simpa [cellAt] using ha, by simpa [cellAt] using hb, hne, ?_⟩
          simpa using hd
        | succ j =>
          right
          refine ⟨j, c, va, vb, by simpa [cellAt] using ha, by simpa [cellAt] using hb,
            hne, ?_⟩
          rw [hd, show row + 1 + j = row + (j + 1) by omega]

theorem pairwise_sheetDiffsFrom : ∀ (rowsA rowsB : List (List String)) (row : Nat),
    (sheetDiffsFrom row rowsA rowsB).Pairwise CellDiff.before := by
  intro rowsA
  induction rowsA with
  | nil => intro rowsB row; simp [sheetDiffsFrom]
  | cons ra rowsA ih =>
    intro rowsB row
    cases rowsB with
    | nil => simp [sheetDiffsFrom]
    | cons rb rowsB =>
      rw [sheetDiffsFrom, List.pairwise_append]
      refine ⟨pairwise_rowDiffsFrom row ra rb 0, ih rowsB (row + 1), ?_⟩
      intro x hx y hy
      obtain ⟨k, va, vb, -, -, -, hx⟩ := (mem_rowDiffsFrom row ra rb 0 x).mp hx
      obtain ⟨j, c, wa, wb, -, -, -, hy⟩ := (mem_sheetDiffsFrom rowsA rowsB (row + 1) y).mp hy
      subst hx hy
      left
      show (row : Int) < ((row + 1 + j : Nat) : Int)
      omega

theorem cellAt_lt {rows : List (List String)} {r c : Nat} {v : String}
    (h : cellAt rows r c = some v) : r < rows.length := by
  unfold cellAt at h
  by_contra hlt
  rw [List.getElem?_eq_none (by omega)] at h
  exact absurd h (by simp)

theorem widths_of_sameWidths : ∀ (rowsA rowsB : List (List String)),
    sameWidths rowsA rowsB = true → ∀ (r : Nat) (ra rb : List String),
      rowsA[r]? = some ra → rowsB[r]? = some rb → ra.length = rb.length := by
  intro rowsA
  induction rowsA with
  | nil => intro rowsB _ r ra rb ha; simp at ha
  | cons x rowsA ih =>
    intro rowsB h r ra rb ha hb
    cases rowsB with
    | nil => simp at hb
    | cons y rowsB =>
      simp only [sameWidths, Bool.and_eq_true, decide_eq_true_eq] at h
      cases r with
      | zero =>
        simp only [List.getElem?_cons_zero, Option.some.injEq] at ha hb
        subst ha hb
        exact h.1
      | succ r => exact ih rowsB h.2 r ra rb (by simpa using ha) (by simpa using hb)

theorem eq_singleton_of_pairwise_before {l : List CellDiff} {x : CellDiff}
    (hp : l.Pairwise CellDiff.before) (hmem : ∀ d, d ∈ l ↔ d = x) : l = [x] := by
  cases l with
  | nil => exact absurd ((hmem x).mpr rfl) (List.not_mem_nil _)
  | cons y t =>
    have hy : y = x := (hmem y).mp (List.mem_cons_self _ _)
    subst hy
    cases t with
    | nil => rfl
    | cons z t =>
      have hz : z = y := (hmem z).mp (by simp)
      subst hz
      have hb : CellDiff.before z z := (List.pairwise_cons.mp hp).1 z (by simp)
      rcases hb with h | ⟨_, h⟩ <;> exact absurd h (lt_irrefl _)

/-! ## The two loops -/

theorem styleFailures_append (l₁ l₂ : List Event) :
    styleFailures (l₁ ++ l₂) = styleFailures l₁ ++ styleFailures l₂ := by
  simp [styleFailures]

theorem LoopOutcome.resolve {r : Ret} {diff : List CellDiff} {err : Option Error}
    {log : List Event} (h : LoopOutcome r diff err log)
    (hlog : styleFailures r.log = styleFailures log) : r.err = err ∧ r.diff = diff := by
  rcases h with ⟨h1, h2, -⟩ | ⟨-, -, ev, h3⟩
  · exact ⟨h1, h2⟩
  · rw [hlog] at h3
    have := congrArg List.length h3
    simp at this

theorem colLoop_outcome (cfg : Config) (b : File) (sheetB : String) (row : Nat) :
    ∀ (aCols bCols : List String) (col : Nat) (diff : List CellDiff) (log : List Event),
      LoopOutcome (colLoop cfg b sheetB row col aCols bCols diff log)
        (diff ++ rowDiffsFrom row col aCols bCols) none log := by
  intro aCols
  induction aCols with
  | nil => intro bCols col diff log; left; simp [colLoop, rowDiffsFrom]
  | cons aVal aCols ih =>
    intro bCols col diff log
    cases bCols with
    | nil => left; simp [colLoop, rowDiffsFrom]
    | cons bVal bCols =>
      unfold colLoop rowDiffsFrom
      by_cases hne : aVal ≠ bVal
      · simp only [if_pos hne]
        by_cases hc : cfg.shouldColorSheet = true
        · simp only [hc, if_true]
          cases hN : b.NewStyle log (fillStyle cfg.color) with
          | error e =>
            right
            exact ⟨by simp, rfl, .NewStyle .B (fillStyle cfg.color) (.inl e),
              by simp [styleFailures_append, styleFailures, isStyleFailure]⟩
          | ok s =>
            simp only
            cases hS : b.SetCellStyle (log ++ [.NewStyle .B (fillStyle cfg.color) (.inr s)])
                sheetB (getCellVal row col) (getCellVal row col) s with
            | some e =>
              right
              exact ⟨by simp, rfl,
                .SetCellStyle .B sheetB (getCellVal row col) (getCellVal row col) s (some e),
                by simp [styleFailures_append, styleFailures, isStyleFailure]⟩
            | none =>
              simp only
              have hlog : styleFailures (log ++ [.NewStyle .B (fillStyle cfg.color) (.inr s)] ++
                  [.SetCellStyle .B sheetB (getCellVal row col) (getCellVal row col) s none]) =
                  styleFailures log := by
                simp [styleFailures_append, styleFailures, isStyleFailure]
              have := ih bCols (col + 1)
                (diff ++ [⟨getCellVal row col, row, col, aVal, bVal⟩])
                (log ++ [.NewStyle .B (fillStyle cfg.color) (.inr s)] ++
                  [.SetCellStyle .B sheetB (getCellVal row col) (getCellVal row col) s none])
              unfold LoopOutcome at this ⊢
              rw [hlog] at this
              simpa [List.append_assoc] using this
        · simp only [hc]
          have := ih bCols (col + 1) (diff ++ [⟨getCellVal row col, row, col, aVal, bVal⟩]) log
          unfold LoopOutcome at this ⊢
          simpa [List.append_assoc] using this
      · simp only [if_neg hne]
        simpa using ih bCols (col + 1) diff log

theorem rowLoop_outcome (cfg : Config) (b : File) (sheetB : String) :
    ∀ (rowsA rowsB : List (List String)) (row : Nat) (diff : List CellDiff) (log : List Event),
      (∀ (r : Nat) (ra rb : List String),
        rowsA[r]? = some ra → rowsB[r]? = some rb → ra.length = rb.length) →
      LoopOutcome (rowLoop cfg b sheetB row (rowsA.map .ok) (rowsB.map .ok) diff log)
        (diff ++ sheetDiffsFrom row rowsA rowsB) none log := by
  intro rowsA
  induction rowsA with
  | nil =>
    intro rowsB row diff log _
    left
    simp [rowLoop, sheetDiffsFrom, styleFailures_append, styleFailures, isStyleFailure]
  | cons ra rowsA ih =>
    intro rowsB row diff log hw
    cases rowsB with
    | nil =>
      left
      simp [rowLoop, sheetDiffsFrom, styleFailures_append, styleFailures, isStyleFailure]
    | cons rb rowsB =>
      have hlen : ra.length = rb.length := hw 0 ra rb (by simp) (by simp)
      have htail : ∀ (r : Nat) (x y : List String),
          rowsA[r]? = some x → rowsB[r]? = some y → x.length = y.length :=
        fun r x y hx hy => hw (r + 1) x y (by simpa using hx) (by simpa using hy)
      have hcol := colLoop_outcome cfg b sheetB row ra rb 0 diff
        (log ++ [.Next .A true, .Next .B true, .Columns .A, .Columns .B])
      have hpre : styleFailures
          (log ++ [.Next .A true, .Next .B true, .Columns .A, .Columns .B]) =
          styleFailures log := by
        simp [styleFailures_append, styleFailures, isStyleFailure]
      simp only [List.map_cons, rowLoop, hlen, ne_eq, not_true_eq_false, if_false,
        sheetDiffsFrom]
      generalize colLoop cfg b sheetB row 0 ra rb diff
        (log ++ [.Next .A true, .Next .B true, .Columns .A, .Columns .B]) = ret at hcol
      obtain ⟨d1, e1, l1⟩ := ret
      rcases hcol with ⟨h1, h2, h3⟩ | ⟨h1, h2, ev, h3⟩
      · simp only at h1 h2 h3
        subst h1 h2
        rw [hpre] at h3
        have := ih rowsB (row + 1) (diff ++ rowDiffsFrom row 0 ra rb) l1 htail
        unfold LoopOutcome at this ⊢
        rw [h3] at this
        simpa [List.append_assoc] using this
      · simp only at h1 h2 h3
        rw [hpre] at h3
        cases e1 with
        | none => exact absurd rfl h1
        | some e => right; exact ⟨by simp, rfl, ev, h3⟩

theorem rowLoop_mismatch_outcome (cfg : Config) (b : File) (sheetB : String) :
    ∀ (rowsA rowsB : List (List String)) (k : Nat) (ra rb : List String) (row : Nat)
      (diff : List CellDiff) (log : List Event),
      rowsA[k]? = some ra → rowsB[k]? = some rb → ra.length ≠ rb.length →
      LoopOutcome (rowLoop cfg b sheetB row (rowsA.map .ok) (rowsB.map .ok) diff log)
        [] (some (.New "Found row size that doesn\x27t match")) log := by
  intro rowsA
  induction rowsA with
  | nil => intro rowsB k ra rb row diff log ha; simp at ha
  | cons x rowsA ih =>
    intro rowsB k ra rb row diff log ha hb hne
    cases rowsB with
    | nil => simp at hb
    | cons y rowsB =>
      have hpre : styleFailures
          (log ++ [.Next .A true, .Next .B true, .Columns .A, .Columns .B]) =
          styleFailures log := by
        simp [styleFailures_append, styleFailures, isStyleFailure]
      by_cases hxy : x.length = y.length
      · have hcol := colLoop_outcome cfg b sheetB row x y 0 diff
          (log ++ [.Next .A true, .Next .B true, .Columns .A, .Columns .B])
        simp only [List.map_cons, rowLoop, hxy, ne_eq, not_true_eq_false, if_false]
        generalize colLoop cfg b sheetB row 0 x y diff
          (log ++ [.Next .A true, .Next .B true, .Columns .A, .Columns .B]) = ret at hcol
        obtain ⟨d1, e1, l1⟩ := ret
        rcases hcol with ⟨h1, h2, h3⟩ | ⟨h1, h2, ev, h3⟩
        · simp only at h1 h2 h3
          subst h1 h2
          rw [hpre] at h3
          cases k with
          | zero =>
            simp only [List.getElem?_cons_zero, Option.some.injEq] at ha hb
            subst ha hb
            exact absurd hxy hne
          | succ k =>
            have := ih rowsB k ra rb (row + 1) (diff ++ rowDiffsFrom row 0 x y) l1
              (by simpa using ha) (by simpa using hb) hne
            unfold LoopOutcome at this ⊢
            rw [h3] at this
            simpa using this
        · simp only at h1 h2 h3
          rw [hpre] at h3
          cases e1 with
          | none => exact absurd rfl h1
          | some e => right; exact ⟨by simp, rfl, ev, h3⟩
      · left
        simp only [List.map_cons, rowLoop, ne_eq, hxy, not_false_eq_true, if_true]
        exact ⟨trivial, trivial, hpre⟩
/-! ## compareSheets -/

theorem styleOps_append (l₁ l₂ : List Event) :
    styleOps (l₁ ++ l₂) = styleOps l₁ ++ styleOps l₂ := by
  simp [styleOps]

theorem colLoop_plain_styleOps (cfg : Config) (b : File) (sheetB : String) (row : Nat)
    (hc : cfg.shouldColorSheet = false) :
    ∀ (aCols bCols : List String) (col : Nat) (diff : List CellDiff) (log : List Event),
      styleOps (colLoop cfg b sheetB row col aCols bCols diff log).log = styleOps log := by
  intro aCols
  induction aCols with
  | nil => intro bCols col diff log; simp [colLoop]
  | cons aVal aCols ih =>
    intro bCols col diff log
    cases bCols with
    | nil => simp [colLoop]
    | cons bVal bCols =>
      unfold colLoop
      by_cases hne : aVal ≠ bVal
      · rw [if_pos hne]
        simp only [hc, Bool.false_eq_true, if_false]
        exact ih _ _ _ _
      · rw [if_neg hne]
        exact ih _ _ _ _

theorem rowLoop_plain_styleOps (cfg : Config) (b : File) (sheetB : String)
    (hc : cfg.shouldColorSheet = false) :
    ∀ (aRows bRows : List (Except Error (List String))) (row : Nat) (diff : List CellDiff)
      (log : List Event),
      styleOps (rowLoop cfg b sheetB row aRows bRows diff log).log = styleOps log := by
  intro aRows
  induction aRows with
  | nil => intro bRows row diff log; simp [rowLoop, styleOps_append, styleOps, isStyleOp]
  | cons ra aRows ih =>
    intro bRows row diff log
    cases bRows with
    | nil => simp [rowLoop, styleOps_append, styleOps, isStyleOp]
    | cons rb bRows =>
      unfold rowLoop
      cases ra with
      | error e => simp [styleOps_append, styleOps, isStyleOp]
      | ok aCols =>
        cases rb with
        | error e => simp [styleOps_append, styleOps, isStyleOp]
        | ok bCols =>
          simp only
          by_cases hlen : aCols.length ≠ bCols.length
          · rw [if_pos hlen]
            simp [styleOps_append, styleOps, isStyleOp]
          · rw [if_neg hlen]
            have hcol := colLoop_plain_styleOps cfg b sheetB row hc aCols bCols 0 diff
              (log ++ [.Next .A true, .Next .B true, .Columns .A, .Columns .B])
            generalize colLoop cfg b sheetB row 0 aCols bCols diff
              (log ++ [.Next .A true, .Next .B true, .Columns .A, .Columns .B]) = ret at hcol
            obtain ⟨d1, e1, l1⟩ := ret
            simp only at hcol
            have hl : styleOps l1 = styleOps log := by
              rw [hcol]; simp [styleOps_append, styleOps, isStyleOp]
            cases e1 with
            | some e => exact hl
            | none =>
              simp only
              rw [ih, hl]

theorem compareSheets_plain_styleOps (cfg : Config) (a b : File) (sheetA sheetB : String)
    (log : List Event) (hc : cfg.shouldColorSheet = false) :
    styleOps (compareSheets cfg a b sheetA sheetB log).log = styleOps log := by
  unfold compareSheets
  cases a.GetSheetDimension sheetA with
  | error e => simp [styleOps_append, styleOps, isStyleOp]
  | ok aDim =>
    cases b.GetSheetDimension sheetB with
    | error e => simp [styleOps_append, styleOps, isStyleOp]
    | ok bDim =>
      simp only
      by_cases hd : aDim ≠ bDim
      · rw [if_pos hd]; simp [styleOps_append, styleOps, isStyleOp]
      · rw [if_neg hd]
        cases a.Rows sheetA with
        | error e => simp [styleOps_append, styleOps, isStyleOp]
        | ok aRows =>
          cases b.Rows sheetB with
          | error e => simp [styleOps_append, styleOps, isStyleOp]
          | ok bRows =>
            simp only
            rw [styleOps_append, rowLoop_plain_styleOps cfg b sheetB hc]
            simp [styleOps_append, styleOps, isStyleOp]

theorem styleFailures_styleOps (l : List Event) : styleFailures (styleOps l) = styleFailures l := by
  unfold styleFailures styleOps
  rw [List.filter_filter]
  congr 1
  funext e
  cases e <;> simp [isStyleFailure, isStyleOp]

theorem compareSheets_no_failure (cfg : Config) (a b : File) (sheetA sheetB : String)
    (log : List Event)
    (hstyle : cfg.shouldColorSheet = false ∨
      styleFailures (compareSheets cfg a b sheetA sheetB log).log = styleFailures log) :
    styleFailures (compareSheets cfg a b sheetA sheetB log).log = styleFailures log := by
  rcases hstyle with h | h
  · rw [← styleFailures_styleOps, compareSheets_plain_styleOps cfg a b sheetA sheetB log h,
      styleFailures_styleOps]
  · exact h

theorem compareSheets_eq_rowLoop (cfg : Config) (a b : File) (sheetA sheetB : String)
    (log : List Event) (dim : String) (rowsA rowsB : List (List String))
    (hA : HasSheet a sheetA dim rowsA) (hB : HasSheet b sheetB dim rowsB) :
    compareSheets cfg a b sheetA sheetB log =
      ⟨(rowLoop cfg b sheetB 0 (rowsA.map .ok) (rowsB.map .ok) []
          (log ++ [.GetSheetDimension .A sheetA, .GetSheetDimension .B sheetB,
            .Rows .A sheetA, .Rows .B sheetB])).diff,
       (rowLoop cfg b sheetB 0 (rowsA.map .ok) (rowsB.map .ok) []
          (log ++ [.GetSheetDimension .A sheetA, .GetSheetDimension .B sheetB,
            .Rows .A sheetA, .Rows .B sheetB])).err,
       (rowLoop cfg b sheetB 0 (rowsA.map .ok) (rowsB.map .ok) []
          (log ++ [.GetSheetDimension .A sheetA, .GetSheetDimension .B sheetB,
            .Rows .A sheetA, .Rows .B sheetB])).log ++ [.Close .B, .Close .A]⟩ := by
  unfold compareSheets
  rw [hA.1, hB.1]
  simp only [ne_eq, not_true_eq_false, if_false]
  rw [hA.2, hB.2]

theorem compareSheets_outcome (cfg : Config) (a b : File) (sheetA sheetB : String)
    (log : List Event) (dim : String) (rowsA rowsB : List (List String))
    (hA : HasSheet a sheetA dim rowsA) (hB : HasSheet b sheetB dim rowsB)
    (hwidth : ∀ (r : Nat) (ra rb : List String),
      rowsA[r]? = some ra → rowsB[r]? = some rb → ra.length = rb.length) :
    LoopOutcome (compareSheets cfg a b sheetA sheetB log)
      (sheetDiffsFrom 0 rowsA rowsB) none log := by
  rw [compareSheets_eq_rowLoop cfg a b sheetA sheetB log dim rowsA rowsB hA hB]
  have := rowLoop_outcome cfg b sheetB rowsA rowsB 0 []
    (log ++ [.GetSheetDimension .A sheetA, .GetSheetDimension .B sheetB,
      .Rows .A sheetA, .Rows .B sheetB]) hwidth
  unfold LoopOutcome at this ⊢
  simpa [styleFailures_append, styleFailures, isStyleFailure] using this

theorem compareSheets_mismatch_outcome (cfg : Config) (a b : File) (sheetA sheetB : String)
    (log : List Event) (dim : String) (rowsA rowsB : List (List String)) (k : Nat)
    (ra rb : List String)
    (hA : HasSheet a sheetA dim rowsA) (hB : HasSheet b sheetB dim rowsB)
    (hka : rowsA[k]? = some ra) (hkb : rowsB[k]? = some rb) (hne : ra.length ≠ rb.length) :
    LoopOutcome (compareSheets cfg a b sheetA sheetB log)
      [] (some (.New "Found row size that doesn\x27t match")) log := by
  rw [compareSheets_eq_rowLoop cfg a b sheetA sheetB log dim rowsA rowsB hA hB]
  have := rowLoop_mismatch_outcome cfg b sheetB rowsA rowsB k ra rb 0 []
    (log ++ [.GetSheetDimension .A sheetA, .GetSheetDimension .B sheetB,
      .Rows .A sheetA, .Rows .B sheetB]) hka hkb hne
  unfold LoopOutcome at this ⊢
  simpa [styleFailures_append, styleFailures, isStyleFailure] using this

theorem compareSheets_of_sheets (cfg : Config) (a b : File) (sheetA sheetB : String)
    (log : List Event) (dim : String) (rowsA rowsB : List (List String))
    (hA : HasSheet a sheetA dim rowsA) (hB : HasSheet b sheetB dim rowsB)
    (hwidth : ∀ (r : Nat) (ra rb : List String),
      rowsA[r]? = some ra → rowsB[r]? = some rb → ra.length = rb.length)
    (hstyle : cfg.shouldColorSheet = false ∨
      styleFailures (compareSheets cfg a b sheetA sheetB log).log = styleFailures log) :
    (compareSheets cfg a b sheetA sheetB log).err = none ∧
    (compareSheets cfg a b sheetA sheetB log).diff = sheetDiffsFrom 0 rowsA rowsB :=
  (compareSheets_outcome cfg a b sheetA sheetB log dim rowsA rowsB hA hB hwidth).resolve
    (compareSheets_no_failure cfg a b sheetA sheetB log hstyle)

/-- C1, as stated, fails: the two sheets have equal dimension descriptors, two
rows each and 27 cells in every row, and differ in column 26 of both rows;
with highlighting on, the document refuses the cell reference "[1" that
`getCellVal 0 26` gives, and `compareSheets` returns that error and no
differences. -/
theorem compareSheets_same_shape_style_failure :
    (HasSheet (strictFile "A1:AA2" [wideRow "1", wideRow "2"]) "Sheet1" "A1:AA2"
        [wideRow "1", wideRow "2"] ∧
      HasSheet (strictFile "A1:AA2" [wideRow "7", wideRow "9"]) "Sheet1" "A1:AA2"
        [wideRow "7", wideRow "9"] ∧
      [wideRow "1", wideRow "2"].length = [wideRow "7", wideRow "9"].length ∧
      sameWidths [wideRow "1", wideRow "2"] [wideRow "7", wideRow "9"] = true) ∧
    (cellAt [wideRow "1", wideRow "2"] 0 26 = some "1" ∧
      cellAt [wideRow "7", wideRow "9"] 0 26 = some "7") ∧
    (compareSheets colorCfg (strictFile "A1:AA2" [wideRow "1", wideRow "2"])
      (strictFile "A1:AA2" [wideRow "7", wideRow "9"]) "Sheet1" "Sheet1" []).err =
      some (.collaborator "invalid cell name") ∧
    (compareSheets colorCfg (strictFile "A1:AA2" [wideRow "1", wideRow "2"])
      (strictFile "A1:AA2" [wideRow "7", wideRow "9"]) "Sheet1" "Sheet1" []).diff = [] :=
  ⟨⟨⟨rfl, rfl⟩, ⟨rfl, rfl⟩, by decide, by decide⟩, by decide, by decide, by decide⟩

/-- C1, amended: for two sheets with equal dimension descriptors, the same
number of rows and equal cell counts in every corresponding row, when
highlighting is disabled or no style operation of the call fails,
`compareSheets` succeeds; a record is in the result if and only if it is
`CellDiff{getCellVal(r,c), r, c, A[r][c], B[r][c]}` for a position `(r,c)` where
the two values differ, and the records are in strict row-major order (ascending
row, then ascending column), hence without duplicates. -/
theorem compareSheets_returns_exactly_the_differing_cells (cfg : Config) (a b : File)
    (sheetA sheetB : String) (log : List Event) (dim : String)
    (rowsA rowsB : List (List String))
    (hA : HasSheet a sheetA dim rowsA) (hB : HasSheet b sheetB dim rowsB)
    (_hrows : rowsA.length = rowsB.length)
    (hwidth : ∀ (r : Nat) (ra rb : List String),
      rowsA[r]? = some ra → rowsB[r]? = some rb → ra.length = rb.length)
    (hstyle : cfg.shouldColorSheet = false ∨
      styleFailures (compareSheets cfg a b sheetA sheetB log).log = styleFailures log) :
    (compareSheets cfg a b sheetA sheetB log).err = none ∧
    (∀ d : CellDiff, d ∈ (compareSheets cfg a b sheetA sheetB log).diff ↔
      ∃ (r c : Nat) (va vb : String), cellAt rowsA r c = some va ∧ cellAt rowsB r c = some vb ∧
        va ≠ vb ∧ d = ⟨getCellVal r c, r, c, va, vb⟩) ∧
    (compareSheets cfg a b sheetA sheetB log).diff.Pairwise CellDiff.before := by
  obtain ⟨herr, hdiff⟩ :=
    compareSheets_of_sheets cfg a b sheetA sheetB log dim rowsA rowsB hA hB hwidth hstyle
  refine ⟨herr, ?_, ?_⟩
  · intro d
    rw [hdiff, mem_sheetDiffsFrom]
    simp only [Nat.zero_add]
  · rw [hdiff]
    exact pairwise_sheetDiffsFrom rowsA rowsB 0

theorem compareSheets_returns_exactly_the_differing_cells_witness :
    (HasSheet (sheetFile "A1:B2" [["1", "2"], ["3", "4"]]) "Sheet1" "A1:B2"
        [["1", "2"], ["3", "4"]] ∧
      HasSheet (sheetFile "A1:B2" [["1", "9"], ["3", "4"]]) "Sheet1" "A1:B2"
        [["1", "9"], ["3", "4"]] ∧
      styleFailures (compareSheets colorCfg (sheetFile "A1:B2" [["1", "2"], ["3", "4"]])
        (sheetFile "A1:B2" [["1", "9"], ["3", "4"]]) "Sheet1" "Sheet1" []).log =
        styleFailures []) ∧
    ((compareSheets colorCfg (sheetFile "A1:B2" [["1", "2"], ["3", "4"]])
        (sheetFile "A1:B2" [["1", "9"], ["3", "4"]]) "Sheet1" "Sheet1" []).err = none ∧
    (∀ d : CellDiff, d ∈ (compareSheets colorCfg (sheetFile "A1:B2" [["1", "2"], ["3", "4"]])
        (sheetFile "A1:B2" [["1", "9"], ["3", "4"]]) "Sheet1" "Sheet1" []).diff ↔
      ∃ (r c : Nat) (va vb : String), cellAt [["1", "2"], ["3", "4"]] r c = some va ∧
        cellAt [["1", "9"], ["3", "4"]] r c = some vb ∧
        va ≠ vb ∧ d = ⟨getCellVal r c, r, c, va, vb⟩) ∧
    (compareSheets colorCfg (sheetFile "A1:B2" [["1", "2"], ["3", "4"]])
        (sheetFile "A1:B2" [["1", "9"], ["3", "4"]]) "Sheet1" "Sheet1"
        []).diff.Pairwise CellDiff.before) :=
  ⟨⟨⟨rfl, rfl⟩, ⟨rfl, rfl⟩, by decide⟩,
    compareSheets_returns_exactly_the_differing_cells colorCfg _ _ "Sheet1" "Sheet1" []
      "A1:B2" [["1", "2"], ["3", "4"]] [["1", "9"], ["3", "4"]] ⟨rfl, rfl⟩ ⟨rfl, rfl⟩ rfl
      (widths_of_sameWidths _ _ (by decide)) (Or.inr (by decide))⟩

/-- C9, as stated, fails: the two sheets have equal dimension descriptors, two
rows and one row, and 27 cells in the first row of each, which differ in column
26; with highlighting on, the document refuses the cell reference "[1", and
`compareSheets` returns with that error. -/
theorem compareSheets_shorter_sheet_style_failure :
    (HasSheet (strictFile "A1:AA2" [wideRow "a", ["1"]]) "Sheet1" "A1:AA2"
        [wideRow "a", ["1"]] ∧
      HasSheet (strictFile "A1:AA2" [wideRow "b"]) "Sheet1" "A1:AA2" [wideRow "b"] ∧
      [wideRow "a", ["1"]].length ≠ [wideRow "b"].length ∧
      sameWidths [wideRow "a", ["1"]] [wideRow "b"] = true) ∧
    (compareSheets colorCfg (strictFile "A1:AA2" [wideRow "a", ["1"]])
      (strictFile "A1:AA2" [wideRow "b"]) "Sheet1" "Sheet1" []).err =
      some (.collaborator "invalid cell name") ∧
    (compareSheets colorCfg (strictFile "A1:AA2" [wideRow "a", ["1"]])
      (strictFile "A1:AA2" [wideRow "b"]) "Sheet1" "Sheet1" []).err ≠ none :=
  ⟨⟨⟨rfl, rfl⟩, ⟨rfl, rfl⟩, by decide, by decide⟩, by decide, by decide⟩

/-- C9, amended: for two sheets with equal dimension descriptors and different
numbers of rows `m` and `n`, whose first `min m n` row pairs have equal cell
counts, when highlighting is disabled or no style operation of the call fails,
`compareSheets` returns without error, and its result is exactly the records of
the differing positions in the first `min m n` row pairs, in row-major order:
the rows beyond the shorter sheet give no record and no error. -/
theorem compareSheets_ignores_rows_beyond_shorter_sheet (cfg : Config) (a b : File)
    (sheetA sheetB : String) (log : List Event) (dim : String)
    (rowsA rowsB : List (List String))
    (hA : HasSheet a sheetA dim rowsA) (hB : HasSheet b sheetB dim rowsB)
    (_hrows : rowsA.length ≠ rowsB.length)
    (hwidth : ∀ (r : Nat) (ra rb : List String), r < min rowsA.length rowsB.length →
      rowsA[r]? = some ra → rowsB[r]? = some rb → ra.length = rb.length)
    (hstyle : cfg.shouldColorSheet = false ∨
      styleFailures (compareSheets cfg a b sheetA sheetB log).log = styleFailures log) :
    (compareSheets cfg a b sheetA sheetB log).err = none ∧
    (∀ d : CellDiff, d ∈ (compareSheets cfg a b sheetA sheetB log).diff ↔
      ∃ (r c : Nat) (va vb : String), r < min rowsA.length rowsB.length ∧
        cellAt rowsA r c = some va ∧ cellAt rowsB r c = some vb ∧
        va ≠ vb ∧ d = ⟨getCellVal r c, r, c, va, vb⟩) ∧
    (compareSheets cfg a b sheetA sheetB log).diff.Pairwise CellDiff.before ∧
    (∀ d ∈ (compareSheets cfg a b sheetA sheetB log).diff,
      d.Row < (min rowsA.length rowsB.length : Nat)) := by
  have hwidth1 : ∀ (r : Nat) (ra rb : List String),
      rowsA[r]? = some ra → rowsB[r]? = some rb → ra.length = rb.length := by
    intro r ra rb ha hb
    have h1 : r < rowsA.length := by
      by_contra hlt
      rw [List.getElem?_eq_none (by omega)] at ha
      exact absurd ha (by simp)
    have h2 : r < rowsB.length := by
      by_contra hlt
      rw [List.getElem?_eq_none (by omega)] at hb
      exact absurd hb (by simp)
    exact hwidth r ra rb (lt_min h1 h2) ha hb
  obtain ⟨herr, hdiff⟩ :=
    compareSheets_of_sheets cfg a b sheetA sheetB log dim rowsA rowsB hA hB hwidth1 hstyle
  have hmem : ∀ d : CellDiff, d ∈ (compareSheets cfg a b sheetA sheetB log).diff ↔
      ∃ (r c : Nat) (va vb : String), r < min rowsA.length rowsB.length ∧
        cellAt rowsA r c = some va ∧ cellAt rowsB r c = some vb ∧
        va ≠ vb ∧ d = ⟨getCellVal r c, r, c, va, vb⟩ := by
    intro d
    rw [hdiff, mem_sheetDiffsFrom]
    simp only [Nat.zero_add]
    constructor
    · rintro ⟨r, c, va, vb, ha, hb, hne, hd⟩
      exact ⟨r, c, va, vb, lt_min (cellAt_lt ha) (cellAt_lt hb), ha, hb, hne, hd⟩
    · rintro ⟨r, c, va, vb, -, ha, hb, hne, hd⟩
      exact ⟨r, c, va, vb, ha, hb, hne, hd⟩
  refine ⟨herr, hmem, ?_, ?_⟩
  · rw [hdiff]
    exact pairwise_sheetDiffsFrom rowsA rowsB 0
  · intro d hd
    obtain ⟨r, c, va, vb, hr, -, -, -, rfl⟩ := (hmem d).mp hd
    show (r : Int) < ((min rowsA.length rowsB.length : Nat) : Int)
    exact_mod_cast hr

theorem compareSheets_ignores_rows_beyond_shorter_sheet_witness :
    (HasSheet (sheetFile "A1:B2" [["1", "2"], ["3", "4"], ["5", "6"]]) "Sheet1" "A1:B2"
        [["1", "2"], ["3", "4"], ["5", "6"]] ∧
      HasSheet (sheetFile "A1:B2" [["1", "9"]]) "Sheet1" "A1:B2" [["1", "9"]] ∧
      [["1", "2"], ["3", "4"], ["5", "6"]].length ≠ [["1", "9"]].length ∧
      styleFailures (compareSheets colorCfg
        (sheetFile "A1:B2" [["1", "2"], ["3", "4"], ["5", "6"]])
        (sheetFile "A1:B2" [["1", "9"]]) "Sheet1" "Sheet1" []).log = styleFailures []) ∧
    (compareSheets colorCfg (sheetFile "A1:B2" [["1", "2"], ["3", "4"], ["5", "6"]])
        (sheetFile "A1:B2" [["1", "9"]]) "Sheet1" "Sheet1" []).diff =
      [⟨"B1", 0, 1, "2", "9"⟩] ∧
    (∀ d ∈ (compareSheets colorCfg (sheetFile "A1:B2" [["1", "2"], ["3", "4"], ["5", "6"]])
        (sheetFile "A1:B2" [["1", "9"]]) "Sheet1" "Sheet1" []).diff, d.Row < (1 : Nat)) :=
  ⟨⟨⟨rfl, rfl⟩, ⟨rfl, rfl⟩, by decide, by decide⟩, by decide,
    (compareSheets_ignores_rows_beyond_shorter_sheet colorCfg _ _ "Sheet1" "Sheet1" []
      "A1:B2" [["1", "2"], ["3", "4"], ["5", "6"]] [["1", "9"]] ⟨rfl, rfl⟩ ⟨rfl, rfl⟩
      (by decide) (fun r ra rb _ => widths_of_sameWidths _ _ (by decide) r ra rb)
      (Or.inr (by decide))).2.2.2⟩

/-- C2: for two sheets whose dimension descriptors differ as strings,
`compareSheets` fails with the error "dimensions don't match" and returns no
differences, whatever the cells hold; the only calls it makes are the two
dimension reads: no row is read from either sheet and no style is created or
applied. -/
theorem compareSheets_dimension_mismatch (cfg : Config) (a b : File)
    (sheetA sheetB : String) (log : List Event) (dimA dimB : String)
    (hA : a.GetSheetDimension sheetA = .ok dimA) (hB : b.GetSheetDimension sheetB = .ok dimB)
    (hne : dimA ≠ dimB) :
    (compareSheets cfg a b sheetA sheetB log).err = some (.New "dimensions don\x27t match") ∧
    (compareSheets cfg a b sheetA sheetB log).diff = [] ∧
    (compareSheets cfg a b sheetA sheetB log).log =
      log ++ [.GetSheetDimension .A sheetA, .GetSheetDimension .B sheetB] ∧
    (∀ e ∈ ((compareSheets cfg a b sheetA sheetB log).log).drop log.length,
      isRowRead e = false ∧ isStyleOp e = false) := by
  have h : compareSheets cfg a b sheetA sheetB log =
      ⟨[], some (.New "dimensions don\x27t match"),
        log ++ [.GetSheetDimension .A sheetA, .GetSheetDimension .B sheetB]⟩ := by
    unfold compareSheets
    rw [hA, hB]
    simp only [ne_eq, hne, not_false_eq_true, if_true]
  rw [h]
  refine ⟨rfl, rfl, rfl, ?_⟩
  intro e he
  simp only [List.drop_left, List.mem_cons, List.mem_singleton, List.not_mem_nil,
    or_false] at he
  rcases he with rfl | rfl <;> exact ⟨rfl, rfl⟩

theorem compareSheets_dimension_mismatch_witness :
    ((sheetFile "A1:B2" [["1", "2"], ["3", "4"]]).GetSheetDimension "Sheet1" = .ok "A1:B2" ∧
      (sheetFile "A1:C2" [["1", "9", "x"], ["3", "4"]]).GetSheetDimension "Sheet1"
        = .ok "A1:C2" ∧ "A1:B2" ≠ "A1:C2") ∧
    (compareSheets colorCfg (sheetFile "A1:B2" [["1", "2"], ["3", "4"]])
      (sheetFile "A1:C2" [["1", "9", "x"], ["3", "4"]]) "Sheet1" "Sheet1" []).log =
      [] ++ [.GetSheetDimension .A "Sheet1", .GetSheetDimension .B "Sheet1"] :=
  ⟨⟨rfl, rfl, by decide⟩,
    (compareSheets_dimension_mismatch colorCfg _ _ "Sheet1" "Sheet1" [] "A1:B2" "A1:C2"
      rfl rfl (by decide)).2.2.1⟩

/-- C3, as stated, fails: the two sheets have equal dimension descriptors and
their rows at index 1 have 2 cells and 1 cell; row 0 has 27 cells in both and
differs in column 26. With highlighting on, the document refuses the cell
reference "[1", and `compareSheets` fails with that error, not with the
row-size error. -/
theorem compareSheets_row_size_mismatch_style_failure :
    (HasSheet (strictFile "A1:AA2" [wideRow "a", ["1", "2"]]) "Sheet1" "A1:AA2"
        [wideRow "a", ["1", "2"]] ∧
      HasSheet (strictFile "A1:AA2" [wideRow "b", ["1"]]) "Sheet1" "A1:AA2"
        [wideRow "b", ["1"]] ∧
      [wideRow "a", ["1", "2"]][1]? = some ["1", "2"] ∧
      [wideRow "b", ["1"]][1]? = some ["1"] ∧ ["1", "2"].length ≠ ["1"].length) ∧
    (compareSheets colorCfg (strictFile "A1:AA2" [wideRow "a", ["1", "2"]])
      (strictFile "A1:AA2" [wideRow "b", ["1"]]) "Sheet1" "Sheet1" []).err =
      some (.collaborator "invalid cell name") ∧
    (compareSheets colorCfg (strictFile "A1:AA2" [wideRow "a", ["1", "2"]])
      (strictFile "A1:AA2" [wideRow "b", ["1"]]) "Sheet1" "Sheet1" []).err ≠
      some (.New "Found row size that doesn\x27t match") :=
  ⟨⟨⟨rfl, rfl⟩, ⟨rfl, rfl⟩, rfl, rfl, by decide⟩, by decide, by decide⟩

/-- C3, amended: for two sheets with equal dimension descriptors in which the
rows at some index `k`, below the row count of both sheets, have different
cell counts, when highlighting is disabled or no style operation of the call
fails, `compareSheets` fails with the error "Found row size that doesn't match"
and returns no differences, also when rows before `k` held differing cells. -/
theorem compareSheets_row_size_mismatch (cfg : Config) (a b : File)
    (sheetA sheetB : String) (log : List Event) (dim : String)
    (rowsA rowsB : List (List String)) (k : Nat) (ra rb : List String)
    (hA : HasSheet a sheetA dim rowsA) (hB : HasSheet b sheetB dim rowsB)
    (hka : rowsA[k]? = some ra) (hkb : rowsB[k]? = some rb) (hne : ra.length ≠ rb.length)
    (hstyle : cfg.shouldColorSheet = false ∨
      styleFailures (compareSheets cfg a b sheetA sheetB log).log = styleFailures log) :
    (compareSheets cfg a b sheetA sheetB log).err =
      some (.New "Found row size that doesn\x27t match") ∧
    (compareSheets cfg a b sheetA sheetB log).diff = [] :=
  (compareSheets_mismatch_outcome cfg a b sheetA sheetB log dim rowsA rowsB k ra rb hA hB
    hka hkb hne).resolve (compareSheets_no_failure cfg a b sheetA sheetB log hstyle)

theorem compareSheets_row_size_mismatch_witness :
    (HasSheet (sheetFile "A1:B2" [["1", "2"], ["3", "4"]]) "Sheet1" "A1:B2"
        [["1", "2"], ["3", "4"]] ∧
      HasSheet (sheetFile "A1:B2" [["1", "9"], ["3"]]) "Sheet1" "A1:B2" [["1", "9"], ["3"]] ∧
      [["1", "2"], ["3", "4"]][1]? = some ["3", "4"] ∧
      [["1", "9"], ["3"]][1]? = some ["3"] ∧ ["3", "4"].length ≠ ["3"].length ∧
      styleFailures (compareSheets colorCfg (sheetFile "A1:B2" [["1", "2"], ["3", "4"]])
        (sheetFile "A1:B2" [["1", "9"], ["3"]]) "Sheet1" "Sheet1" []).log = styleFailures []) ∧
    (compareSheets colorCfg (sheetFile "A1:B2" [["1", "2"], ["3", "4"]])
        (sheetFile "A1:B2" [["1", "9"], ["3"]]) "Sheet1" "Sheet1" []).err =
      some (.New "Found row size that doesn\x27t match") ∧
    (compareSheets colorCfg (sheetFile "A1:B2" [["1", "2"], ["3", "4"]])
        (sheetFile "A1:B2" [["1", "9"], ["3"]]) "Sheet1" "Sheet1" []).diff = [] :=
  ⟨⟨⟨rfl, rfl⟩, ⟨rfl, rfl⟩, rfl, rfl, by decide, by decide⟩,
    compareSheets_row_size_mismatch colorCfg _ _ "Sheet1" "Sheet1" [] "A1:B2"
      [["1", "2"], ["3", "4"]] [["1", "9"], ["3"]] 1 ["3", "4"] ["3"] ⟨rfl, rfl⟩ ⟨rfl, rfl⟩
      rfl rfl (by decide) (Or.inr (by decide))⟩

/-- C5, as stated, fails: the two sheets have equal dimension descriptors and
one row of 27 cells each, and differ only in column 26; with highlighting on,
the document refuses the cell reference "[1", and `compareSheets` returns that
error and the empty list, not the list of one record. -/
theorem compareSheets_single_difference_style_failure :
    (HasSheet (strictFile "A1:AA1" [wideRow "a"]) "Sheet1" "A1:AA1" [wideRow "a"] ∧
      HasSheet (strictFile "A1:AA1" [wideRow "b"]) "Sheet1" "A1:AA1" [wideRow "b"] ∧
      sameWidths [wideRow "a"] [wideRow "b"] = true ∧
      cellAt [wideRow "a"] 0 26 = some "a" ∧ cellAt [wideRow "b"] 0 26 = some "b") ∧
    (compareSheets colorCfg (strictFile "A1:AA1" [wideRow "a"])
      (strictFile "A1:AA1" [wideRow "b"]) "Sheet1" "Sheet1" []).err =
      some (.collaborator "invalid cell name") ∧
    (compareSheets colorCfg (strictFile "A1:AA1" [wideRow "a"])
      (strictFile "A1:AA1" [wideRow "b"]) "Sheet1" "Sheet1" []).diff ≠
      [⟨getCellVal 0 26, 0, 26, "a", "b"⟩] :=
  ⟨⟨⟨rfl, rfl⟩, ⟨rfl, rfl⟩, by decide, by decide, by decide⟩, by decide, by decide⟩

/-- C5, amended: for two sheets with equal dimension descriptors and the same
shape whose cell values differ at exactly one coordinate `(r, c)`, when
highlighting is disabled or no style operation of the call fails,
`compareSheets` succeeds and returns the list of exactly one record, with
`Row = r`, `Col = c`, `ValA = A[r][c]`, `ValB = B[r][c]` and
`Cell = getCellVal(r, c)`, for any sheet size; for the rows [["1","2"],["3","4"]]
and [["1","9"],["3","4"]] the result is
`[{Cell:"B1", Row:0, Col:1, ValA:"2", ValB:"9"}]`. -/
theorem compareSheets_single_difference (cfg : Config) (a b : File)
    (sheetA sheetB : String) (log : List Event) (dim : String)
    (rowsA rowsB : List (List String)) (r c : Nat) (va vb : String)
    (hA : HasSheet a sheetA dim rowsA) (hB : HasSheet b sheetB dim rowsB)
    (_hrows : rowsA.length = rowsB.length)
    (hwidth : ∀ (i : Nat) (ra rb : List String),
      rowsA[i]? = some ra → rowsB[i]? = some rb → ra.length = rb.length)
    (ha : cellAt rowsA r c = some va) (hb : cellAt rowsB r c = some vb) (hne : va ≠ vb)
    (hsame : ∀ i j : Nat, (i, j) ≠ (r, c) → cellAt rowsA i j = cellAt rowsB i j)
    (hstyle : cfg.shouldColorSheet = false ∨
      styleFailures (compareSheets cfg a b sheetA sheetB log).log = styleFailures log) :
    ((compareSheets cfg a b sheetA sheetB log).err = none ∧
      (compareSheets cfg a b sheetA sheetB log).diff = [⟨getCellVal r c, r, c, va, vb⟩]) ∧
    (compareSheets plainCfg (sheetFile "A1:B2" [["1", "2"], ["3", "4"]])
        (sheetFile "A1:B2" [["1", "9"], ["3", "4"]]) "Sheet1" "Sheet1" []).diff =
      [⟨"B1", 0, 1, "2", "9"⟩] := by
  refine ⟨?_, by decide⟩
  obtain ⟨herr, hdiff⟩ :=
    compareSheets_of_sheets cfg a b sheetA sheetB log dim rowsA rowsB hA hB hwidth hstyle
  refine ⟨herr, ?_⟩
  rw [hdiff]
  apply eq_singleton_of_pairwise_before (pairwise_sheetDiffsFrom rowsA rowsB 0)
  intro d
  rw [mem_sheetDiffsFrom]
  simp only [Nat.zero_add]
  constructor
  · rintro ⟨i, j, wa, wb, hwa, hwb, hw, hd⟩
    by_cases hij : (i, j) = (r, c)
    · simp only [Prod.mk.injEq] at hij
      obtain ⟨rfl, rfl⟩ := hij
      rw [ha] at hwa
      rw [hb] at hwb
      simp only [Option.some.injEq] at hwa hwb
      subst hwa hwb
      exact hd
    · have := hsame i j hij
      rw [hwa, hwb] at this
      simp only [Option.some.injEq] at this
      exact absurd this hw
  · rintro rfl
    exact ⟨r, c, va, vb, ha, hb, hne, rfl⟩

theorem compareSheets_single_difference_witness :
    (HasSheet (sheetFile "A1:B2" [["1", "2"], ["3", "4"]]) "Sheet1" "A1:B2"
        [["1", "2"], ["3", "4"]] ∧
      HasSheet (sheetFile "A1:B2" [["1", "2"], ["3", "5"]]) "Sheet1" "A1:B2"
        [["1", "2"], ["3", "5"]] ∧
      cellAt [["1", "2"], ["3", "4"]] 1 1 = some "4" ∧
      cellAt [["1", "2"], ["3", "5"]] 1 1 = some "5" ∧ "4" ≠ "5" ∧
      styleFailures (compareSheets colorCfg (sheetFile "A1:B2" [["1", "2"], ["3", "4"]])
        (sheetFile "A1:B2" [["1", "2"], ["3", "5"]]) "Sheet1" "Sheet1" []).log =
        styleFailures []) ∧
    ((compareSheets colorCfg (sheetFile "A1:B2" [["1", "2"], ["3", "4"]])
        (sheetFile "A1:B2" [["1", "2"], ["3", "5"]]) "Sheet1" "Sheet1" []).err = none ∧
      (compareSheets colorCfg (sheetFile "A1:B2" [["1", "2"], ["3", "4"]])
        (sheetFile "A1:B2" [["1", "2"], ["3", "5"]]) "Sheet1" "Sheet1" []).diff =
        [⟨getCellVal (1 : Nat) (1 : Nat), (1 : Nat), (1 : Nat), "4", "5"⟩]) :=
  ⟨⟨⟨rfl, rfl⟩, ⟨rfl, rfl⟩, rfl, rfl, by decide, by decide⟩,
    (compareSheets_single_difference colorCfg _ _ "Sheet1" "Sheet1" [] "A1:B2"
      [["1", "2"], ["3", "4"]] [["1", "2"], ["3", "5"]] 1 1 "4" "5" ⟨rfl, rfl⟩ ⟨rfl, rfl⟩ rfl
      (widths_of_sameWidths _ _ (by decide)) rfl rfl (by decide)
      (by
        intro i j h
        match i, j with
        | 0, 0 => rfl
        | 0, 1 => rfl
        | 0, j + 2 => simp [cellAt]
        | 1, 0 => rfl
        | 1, 1 => exact absurd rfl h
        | 1, j + 2 => simp [cellAt]
        | i + 2, j => simp [cellAt])
      (Or.inr (by decide))).1⟩

/-! ## compareFiles -/

theorem saves_append (l₁ l₂ : List Event) : saves (l₁ ++ l₂) = saves l₁ ++ saves l₂ := by
  simp [saves]

theorem colLoop_saves (cfg : Config) (b : File) (sheetB : String) (row : Nat) :
    ∀ (aCols bCols : List String) (col : Nat) (diff : List CellDiff) (log : List Event),
      saves (colLoop cfg b sheetB row col aCols bCols diff log).log = saves log := by
  intro aCols
  induction aCols with
  | nil => intro bCols col diff log; simp [colLoop]
  | cons aVal aCols ih =>
    intro bCols col diff log
    cases bCols with
    | nil => simp [colLoop]
    | cons bVal bCols =>
      unfold colLoop
      by_cases hne : aVal ≠ bVal
      · rw [if_pos hne]
        by_cases hc : cfg.shouldColorSheet = true
        · simp only [hc, if_true]
          cases hN : b.NewStyle log (fillStyle cfg.color) with
          | error e => simp [saves_append, saves, isSave]
          | ok s =>
            simp only
            cases hS : b.SetCellStyle (log ++ [.NewStyle .B (fillStyle cfg.color) (.inr s)])
                sheetB (getCellVal row col) (getCellVal row col) s with
            | some e => simp [saves_append, saves, isSave]
            | none =>
              simp only
              rw [ih]
              simp [saves_append, saves, isSave]
        · simp only [hc]
          exact ih _ _ _ _
      · rw [if_neg hne]
        exact ih _ _ _ _

theorem rowLoop_saves (cfg : Config) (b : File) (sheetB : String) :
    ∀ (aRows bRows : List (Except Error (List String))) (row : Nat) (diff : List CellDiff)
      (log : List Event),
      saves (rowLoop cfg b sheetB row aRows bRows diff log).log = saves log := by
  intro aRows
  induction aRows with
  | nil => intro bRows row diff log; simp [rowLoop, saves_append, saves, isSave]
  | cons ra aRows ih =>
    intro bRows row diff log
    cases bRows with
    | nil => simp [rowLoop, saves_append, saves, isSave]
    | cons rb bRows =>
      unfold rowLoop
      cases ra with
      | error e => simp [saves_append, saves, isSave]
      | ok aCols =>
        cases rb with
        | error e => simp [saves_append, saves, isSave]
        | ok bCols =>
          simp only
          by_cases hlen : aCols.length ≠ bCols.length
          · rw [if_pos hlen]
            simp [saves_append, saves, isSave]
          · rw [if_neg hlen]
            have hcol := colLoop_saves cfg b sheetB row aCols bCols 0 diff
              (log ++ [.Next .A true, .Next .B true, .Columns .A, .Columns .B])
            generalize colLoop cfg b sheetB row 0 aCols bCols diff
              (log ++ [.Next .A true, .Next .B true, .Columns .A, .Columns .B]) = ret at hcol
            obtain ⟨d1, e1, l1⟩ := ret
            simp only at hcol
            have hl : saves l1 = saves log := by
              rw [hcol]; simp [saves_append, saves, isSave]
            cases e1 with
            | some e => exact hl
            | none =>
              simp only
              rw [ih, hl]

theorem compareSheets_saves (cfg : Config) (a b : File) (sheetA sheetB : String)
    (log : List Event) :
    saves (compareSheets cfg a b sheetA sheetB log).log = saves log := by
  unfold compareSheets
  cases a.GetSheetDimension sheetA with
  | error e => simp [saves_append, saves, isSave]
  | ok aDim =>
    cases b.GetSheetDimension sheetB with
    | error e => simp [saves_append, saves, isSave]
    | ok bDim =>
      simp only
      by_cases hd : aDim ≠ bDim
      · rw [if_pos hd]; simp [saves_append, saves, isSave]
      · rw [if_neg hd]
        cases a.Rows sheetA with
        | error e => simp [saves_append, saves, isSave]
        | ok aRows =>
          cases b.Rows sheetB with
          | error e => simp [saves_append, saves, isSave]
          | ok bRows =>
            simp only
            rw [saves_append, rowLoop_saves]
            simp [saves_append, saves, isSave]

theorem compareFiles_of_success (cfg : Config) (env : Env)
    (fileA fileB sheetA sheetB : String) (log : List Event) (a b : File)
    (hoA : env.OpenFile fileA = .ok a) (hoB : env.OpenFile fileB = .ok b)
    (hok : (compareSheets cfg a b sheetA sheetB
      (log ++ [.OpenFile .A fileA, .OpenFile .B fileB])).err = none) :
    (cfg.shouldColorSheet = true ∧
        (compareSheets cfg a b sheetA sheetB
          (log ++ [.OpenFile .A fileA, .OpenFile .B fileB])).diff ≠ [] →
      saves (compareFiles cfg env fileA fileB sheetA sheetB log).log =
        saves log ++ [.SaveAs .B (ReplaceAll fileB ".xlsx" ".diff.xlsx")
          (b.SaveAs (compareSheets cfg a b sheetA sheetB
              (log ++ [.OpenFile .A fileA, .OpenFile .B fileB])).log
            (ReplaceAll fileB ".xlsx" ".diff.xlsx"))]) ∧
    ((compareSheets cfg a b sheetA sheetB
          (log ++ [.OpenFile .A fileA, .OpenFile .B fileB])).diff = [] ∨
        cfg.shouldColorSheet = false →
      saves (compareFiles cfg env fileA fileB sheetA sheetB log).log = saves log ∧
      (compareFiles cfg env fileA fileB sheetA sheetB log).diff =
        (compareSheets cfg a b sheetA sheetB
          (log ++ [.OpenFile .A fileA, .OpenFile .B fileB])).diff ∧
      (compareFiles cfg env fileA fileB sheetA sheetB log).err = none) := by
  have hs := compareSheets_saves cfg a b sheetA sheetB
    (log ++ [.OpenFile .A fileA, .OpenFile .B fileB])
  unfold compareFiles
  rw [hoA, hoB]
  simp only
  generalize compareSheets cfg a b sheetA sheetB
    (log ++ [.OpenFile .A fileA, .OpenFile .B fileB]) = cs at hok hs
  obtain ⟨d, e, l⟩ := cs
  simp only at hok hs
  subst hok
  have hl : saves l = saves log := by
    rw [hs]; simp [saves_append, saves, isSave]
  simp only
  constructor
  · rintro ⟨hc, hd⟩
    have hpos : d.length > 0 := List.length_pos.mpr hd
    simp only [hc, hpos, decide_True, Bool.and_self, if_true]
    cases hS : b.SaveAs l (ReplaceAll fileB ".xlsx" ".diff.xlsx") with
    | some e => rw [saves_append, hl]; simp [saves, isSave]
    | none => rw [saves_append, hl]; simp [saves, isSave]
  · intro h
    have hcond : (cfg.shouldColorSheet && decide (d.length > 0)) = false := by
      rcases h with h | h
      · subst h; simp
      · simp [h]
    simp only [hcond, Bool.false_eq_true, if_false]
    exact ⟨hl, trivial, trivial⟩

/-- C6: in `compareFiles`, when both documents open and `compareSheets`
succeeds, a save of the B document is made if and only if highlighting is
enabled and the list `compareSheets` returned is not empty; it is then the one
call `SaveAs` on B. When the list is empty or highlighting is disabled, no save
is made, and `compareFiles` returns the differences of `compareSheets` and no
error. -/
theorem compareFiles_saves_iff_highlighting_and_differences (cfg : Config) (env : Env)
    (fileA fileB sheetA sheetB : String) (log : List Event) (a b : File)
    (hoA : env.OpenFile fileA = .ok a) (hoB : env.OpenFile fileB = .ok b)
    (hok : (compareSheets cfg a b sheetA sheetB
      (log ++ [.OpenFile .A fileA, .OpenFile .B fileB])).err = none) :
    (saves (compareFiles cfg env fileA fileB sheetA sheetB log).log ≠ saves log ↔
      cfg.shouldColorSheet = true ∧
        (compareSheets cfg a b sheetA sheetB
          (log ++ [.OpenFile .A fileA, .OpenFile .B fileB])).diff ≠ []) ∧
    (cfg.shouldColorSheet = true ∧
        (compareSheets cfg a b sheetA sheetB
          (log ++ [.OpenFile .A fileA, .OpenFile .B fileB])).diff ≠ [] →
      ∃ res, saves (compareFiles cfg env fileA fileB sheetA sheetB log).log =
        saves log ++ [.SaveAs .B (ReplaceAll fileB ".xlsx" ".diff.xlsx") res]) ∧
    ((compareSheets cfg a b sheetA sheetB
          (log ++ [.OpenFile .A fileA, .OpenFile .B fileB])).diff = [] ∨
        cfg.shouldColorSheet = false →
      saves (compareFiles cfg env fileA fileB sheetA sheetB log).log = saves log ∧
      (compareFiles cfg env fileA fileB sheetA sheetB log).diff =
        (compareSheets cfg a b sheetA sheetB
          (log ++ [.OpenFile .A fileA, .OpenFile .B fileB])).diff ∧
      (compareFiles cfg env fileA fileB sheetA sheetB log).err = none) := by
  obtain ⟨h1, h2⟩ :=
    compareFiles_of_success cfg env fileA fileB sheetA sheetB log a b hoA hoB hok
  refine ⟨⟨?_, ?_⟩, fun h => ⟨_, h1 h⟩, h2⟩
  · intro hne
    by_contra hcon
    apply hne
    refine (h2 ?_).1
    by_cases hc : cfg.shouldColorSheet = true
    · left
      by_contra hd
      exact hcon ⟨hc, hd⟩
    · right
      simpa using hc
  · intro h hs
    have := h1 h
    rw [hs] at this
    simp at this

theorem compareFiles_saves_iff_highlighting_and_differences_witness :
    (twoFilesEnv.OpenFile "a.xlsx" = .ok (sheetFile "A1:A1" [["x"]]) ∧
      twoFilesEnv.OpenFile "b.xlsx" = .ok (sheetFile "A1:A1" [["y"]]) ∧
      (compareSheets colorCfg (sheetFile "A1:A1" [["x"]]) (sheetFile "A1:A1" [["y"]])
        "Sheet1" "Sheet1" ([] ++ [.OpenFile .A "a.xlsx", .OpenFile .B "b.xlsx"])).err = none) ∧
    (saves (compareFiles colorCfg twoFilesEnv "a.xlsx" "b.xlsx" "Sheet1" "Sheet1" []).log
        ≠ saves [] ↔
      colorCfg.shouldColorSheet = true ∧
        (compareSheets colorCfg (sheetFile "A1:A1" [["x"]]) (sheetFile "A1:A1" [["y"]])
          "Sheet1" "Sheet1" ([] ++ [.OpenFile .A "a.xlsx", .OpenFile .B "b.xlsx"])).diff ≠ []) ∧
    saves (compareFiles colorCfg twoFilesEnv "a.xlsx" "b.xlsx" "Sheet1" "Sheet1" []).log =
      [.SaveAs .B "b.diff.xlsx" none] :=
  ⟨⟨rfl, rfl, by decide⟩,
    (compareFiles_saves_iff_highlighting_and_differences colorCfg twoFilesEnv "a.xlsx" "b.xlsx"
      "Sheet1" "Sheet1" [] _ _ rfl rfl (by decide)).1, by decide⟩

theorem hasPrefix_append_xlsx (s : List Char) (hs : s ≠ []) :
    hasPrefix (s ++ ['.', 'x', 'l', 's', 'x']) ['.', 'x', 'l', 's', 'x'] =
      hasPrefix s ['.', 'x', 'l', 's', 'x'] := by
  rcases s with _ | ⟨c, _ | ⟨d, _ | ⟨e, _ | ⟨f, _ | ⟨g, t⟩⟩⟩⟩⟩
  · exact absurd rfl hs
  all_goals simp [hasPrefix]

theorem replaceFrom_stem_xlsx : ∀ s : List Char, occursIn ['.', 'x', 'l', 's', 'x'] s = false →
    replaceFrom ['.', 'x', 'l', 's', 'x'] ['.', 'd', 'i', 'f', 'f', '.', 'x', 'l', 's', 'x'] 0
      (s ++ ['.', 'x', 'l', 's', 'x']) =
      s ++ ['.', 'd', 'i', 'f', 'f', '.', 'x', 'l', 's', 'x'] := by
  intro s
  induction s with
  | nil => intro _; decide
  | cons c s ih =>
    intro h
    simp only [occursIn, Bool.or_eq_false_iff] at h
    have hp := hasPrefix_append_xlsx (c :: s) (by simp)
    rw [h.1] at hp
    rw [List.cons_append] at hp ⊢
    rw [replaceFrom, hp]
    simp only [Bool.false_eq_true, if_false]
    rw [ih h.2, List.cons_append]

theorem replaceAll_stem_xlsx (stem : String) (h : occursIn ".xlsx".data stem.data = false) :
    ReplaceAll (stem ++ ".xlsx") ".xlsx" ".diff.xlsx" = stem ++ ".diff.xlsx" := by
  have hold : (".xlsx" : String).data = ['.', 'x', 'l', 's', 'x'] := rfl
  have hnew : (".diff.xlsx" : String).data =
      ['.', 'd', 'i', 'f', 'f', '.', 'x', 'l', 's', 'x'] := rfl
  rw [hold] at h
  unfold ReplaceAll
  rw [hold, hnew, if_neg (by simp), String.data_append, hold, replaceFrom_stem_xlsx _ h]
  apply String.ext
  rw [String.data_append, hnew]

/-- C7, as stated, fails: the B path "dir.xlsx/b.xlsx" ends with ".xlsx" and
has the stem "dir.xlsx/b", and `compareFiles` saves under
"dir.diff.xlsx/b.diff.xlsx", not under "dir.xlsx/b.diff.xlsx". -/
theorem compareFiles_save_path_is_not_a_suffix_substitution :
    "dir.xlsx/b.xlsx" = "dir.xlsx/b" ++ ".xlsx" ∧
    saves (compareFiles colorCfg twoFilesEnv "a.xlsx" "dir.xlsx/b.xlsx" "Sheet1" "Sheet1"
      []).log = [.SaveAs .B "dir.diff.xlsx/b.diff.xlsx" none] ∧
    "dir.diff.xlsx/b.diff.xlsx" ≠ "dir.xlsx/b" ++ ".diff.xlsx" := by
  decide

/-- C7, amended: for every B path `stem ++ ".xlsx"` whose stem holds no
further occurrence of ".xlsx", the path under which `compareFiles` saves the
annotated document (both documents open, `compareSheets` succeeds with a
non-empty list, highlighting enabled) is `stem ++ ".diff.xlsx"`. -/
theorem compareFiles_save_path_of_clean_stem (cfg : Config) (env : Env)
    (fileA stem sheetA sheetB : String) (log : List Event) (a b : File)
    (hoA : env.OpenFile fileA = .ok a) (hoB : env.OpenFile (stem ++ ".xlsx") = .ok b)
    (hstem : occursIn ".xlsx".data stem.data = false)
    (hok : (compareSheets cfg a b sheetA sheetB
      (log ++ [.OpenFile .A fileA, .OpenFile .B (stem ++ ".xlsx")])).err = none)
    (hc : cfg.shouldColorSheet = true)
    (hd : (compareSheets cfg a b sheetA sheetB
      (log ++ [.OpenFile .A fileA, .OpenFile .B (stem ++ ".xlsx")])).diff ≠ []) :
    ∃ res, saves (compareFiles cfg env fileA (stem ++ ".xlsx") sheetA sheetB log).log =
      saves log ++ [.SaveAs .B (stem ++ ".diff.xlsx") res] := by
  have h := (compareFiles_of_success cfg env fileA (stem ++ ".xlsx") sheetA sheetB log a b
    hoA hoB hok).1 ⟨hc, hd⟩
  rw [replaceAll_stem_xlsx stem hstem] at h
  exact ⟨_, h⟩

theorem compareFiles_save_path_of_clean_stem_witness :
    (twoFilesEnv.OpenFile "a.xlsx" = .ok (sheetFile "A1:A1" [["x"]]) ∧
      twoFilesEnv.OpenFile ("out/b" ++ ".xlsx") = .ok (sheetFile "A1:A1" [["y"]]) ∧
      occursIn ".xlsx".data "out/b".data = false ∧ colorCfg.shouldColorSheet = true) ∧
    ∃ res, saves (compareFiles colorCfg twoFilesEnv "a.xlsx" ("out/b" ++ ".xlsx") "Sheet1"
      "Sheet1" []).log = saves [] ++ [.SaveAs .B ("out/b" ++ ".diff.xlsx") res] :=
  ⟨⟨rfl, rfl, by decide, rfl⟩,
    compareFiles_save_path_of_clean_stem colorCfg twoFilesEnv "a.xlsx" "out/b" "Sheet1"
      "Sheet1" [] _ _ rfl rfl (by decide) (by decide) rfl (by decide)⟩

/-! ## run -/

/-- C8, at a failing input: the flags `-a a*.xlsx -b b.xlsx` pass both length
checks; the pattern "a*.xlsx" expands to two files and "b.xlsx" to one, the
first pair is compared, and at index 1 the expression `filesB[i]` panics. -/
theorem run_indexes_filesB_out_of_range :
    (run plainCfg sameFilesEnv ["a*.xlsx"] ["b.xlsx"]).result =
      .panicked "runtime error: index out of range [1] with length 1" ∧
    Event.Print "comparing a1.xlsx with b.xlsx\n" ∈
      (run plainCfg sameFilesEnv ["a*.xlsx"] ["b.xlsx"]).log ∧
    Event.Print "Files were the same\n" ∈
      (run plainCfg sameFilesEnv ["a*.xlsx"] ["b.xlsx"]).log := by
  decide

/-! ## Highlighting -/

theorem colLoop_styleOps (cfg : Config) (b : File) (sheetB : String) (row : Nat)
    (hc : cfg.shouldColorSheet = true) :
    ∀ (aCols bCols : List String) (col : Nat) (diff : List CellDiff) (log : List Event),
      (colLoop cfg b sheetB row col aCols bCols diff log).err = none →
      ∃ (new : List CellDiff) (ids : List Int),
        (colLoop cfg b sheetB row col aCols bCols diff log).diff = diff ++ new ∧
        ids.length = new.length ∧
        styleOps (colLoop cfg b sheetB row col aCols bCols diff log).log =
          styleOps log ++ (new.zip ids).flatMap (highlightCalls cfg.color sheetB) := by
  intro aCols
  induction aCols with
  | nil => intro bCols col diff log _; exact ⟨[], [], by simp [colLoop]⟩
  | cons aVal aCols ih =>
    intro bCols col diff log
    cases bCols with
    | nil => intro _; exact ⟨[], [], by simp [colLoop]⟩
    | cons bVal bCols =>
      unfold colLoop
      by_cases hne : aVal ≠ bVal
      · rw [if_pos hne]
        simp only [hc, if_true]
        cases hN : b.NewStyle log (fillStyle cfg.color) with
        | error e => intro h; simp at h
        | ok s =>
          simp only
          cases hS : b.SetCellStyle (log ++ [.NewStyle .B (fillStyle cfg.color) (.inr s)])
              sheetB (getCellVal row col) (getCellVal row col) s with
          | some e => intro h; simp at h
          | none =>
            simp only
            intro h
            obtain ⟨new, ids, hd, hlen, hlog⟩ := ih bCols (col + 1) _ _ h
            refine ⟨⟨getCellVal row col, row, col, aVal, bVal⟩ :: new, s :: ids, ?_, ?_, ?_⟩
            · rw [hd]; simp
            · simp [hlen]
            · rw [hlog]
              simp [styleOps_append, styleOps, isStyleOp, highlightCalls, fillStyle]
      · rw [if_neg hne]
        exact ih bCols (col + 1) diff log

theorem rowLoop_styleOps (cfg : Config) (b : File) (sheetB : String)
    (hc : cfg.shouldColorSheet = true) :
    ∀ (aRows bRows : List (Except Error (List String))) (row : Nat) (diff : List CellDiff)
      (log : List Event),
      (rowLoop cfg b sheetB row aRows bRows diff log).err = none →
      ∃ (new : List CellDiff) (ids : List Int),
        (rowLoop cfg b sheetB row aRows bRows diff log).diff = diff ++ new ∧
        ids.length = new.length ∧
        styleOps (rowLoop cfg b sheetB row aRows bRows diff log).log =
          styleOps log ++ (new.zip ids).flatMap (highlightCalls cfg.color sheetB) := by
  intro aRows
  induction aRows with
  | nil =>
    intro bRows row diff log _
    exact ⟨[], [], by simp [rowLoop, styleOps_append, styleOps, isStyleOp]⟩
  | cons ra aRows ih =>
    intro bRows row diff log
    cases bRows with
    | nil =>
      intro _
      exact ⟨[], [], by simp [rowLoop, styleOps_append, styleOps, isStyleOp]⟩
    | cons rb bRows =>
      unfold rowLoop
      cases ra with
      | error e => intro h; simp at h
      | ok aCols =>
        cases rb with
        | error e => intro h; simp at h
        | ok bCols =>
          simp only
          by_cases hlen : aCols.length ≠ bCols.length
          · rw [if_pos hlen]
            intro h; simp at h
          · rw [if_neg hlen]
            have hcol := colLoop_styleOps cfg b sheetB row hc aCols bCols 0 diff
              (log ++ [.Next .A true, .Next .B true, .Columns .A, .Columns .B])
            generalize colLoop cfg b sheetB row 0 aCols bCols diff
              (log ++ [.Next .A true, .Next .B true, .Columns .A, .Columns .B]) = ret at hcol
            obtain ⟨d1, e1, l1⟩ := ret
            cases e1 with
            | some e => intro h; simp at h
            | none =>
              simp only
              intro h
              obtain ⟨new1, ids1, hd1, hlen1, hlog1⟩ := hcol rfl
              obtain ⟨new2, ids2, hd2, hlen2, hlog2⟩ := ih bRows (row + 1) d1 l1 h
              simp only at hd1 hlog1
              refine ⟨new1 ++ new2, ids1 ++ ids2, ?_, ?_, ?_⟩
              · rw [hd2, hd1, List.append_assoc]
              · simp [hlen1, hlen2]
              · rw [hlog2, hlog1, List.zip_append hlen1.symm]
                simp [styleOps_append, styleOps, isStyleOp]

theorem compareSheets_styleOps (cfg : Config) (a b : File) (sheetA sheetB : String)
    (log : List Event) (hc : cfg.shouldColorSheet = true)
    (hok : (compareSheets cfg a b sheetA sheetB log).err = none) :
    ∃ ids : List Int, ids.length = (compareSheets cfg a b sheetA sheetB log).diff.length ∧
      styleOps (compareSheets cfg a b sheetA sheetB log).log =
        styleOps log ++ ((compareSheets cfg a b sheetA sheetB log).diff.zip ids).flatMap
          (highlightCalls cfg.color sheetB) := by
  revert hok
  unfold compareSheets
  cases a.GetSheetDimension sheetA with
  | error e => intro h; simp at h
  | ok aDim =>
    cases b.GetSheetDimension sheetB with
    | error e => intro h; simp at h
    | ok bDim =>
      simp only
      by_cases hd : aDim ≠ bDim
      · rw [if_pos hd]; intro h; simp at h
      · rw [if_neg hd]
        cases a.Rows sheetA with
        | error e => intro h; simp at h
        | ok aRows =>
          cases b.Rows sheetB with
          | error e => intro h; simp at h
          | ok bRows =>
            simp only
            intro h
            obtain ⟨new, ids, hdiff, hlen, hlog⟩ := rowLoop_styleOps cfg b sheetB hc aRows bRows
              0 [] _ h
            refine ⟨ids, ?_, ?_⟩
            · rw [hdiff]; simp [hlen]
            · rw [styleOps_append, hlog, hdiff]
              simp [styleOps_append, styleOps, isStyleOp]

theorem colLoop_plain (cfg : Config) (b : File) (sheetB : String) (row : Nat)
    (hc : cfg.shouldColorSheet = false) (aCols bCols : List String) (col : Nat)
    (diff : List CellDiff) (log : List Event) :
    (colLoop cfg b sheetB row col aCols bCols diff log).err = none ∧
    (colLoop cfg b sheetB row col aCols bCols diff log).diff =
      diff ++ rowDiffsFrom row col aCols bCols := by
  apply (colLoop_outcome cfg b sheetB row aCols bCols col diff log).resolve
  rw [← styleFailures_styleOps, colLoop_plain_styleOps cfg b sheetB row hc,
    styleFailures_styleOps]

theorem rowLoop_plain_outcome (cfgOn cfgOff : Config) (b : File) (sheetB : String)
    (hOff : cfgOff.shouldColorSheet = false) :
    ∀ (aRows bRows : List (Except Error (List String))) (row : Nat) (diff : List CellDiff)
      (log₁ log₂ : List Event),
      LoopOutcome (rowLoop cfgOn b sheetB row aRows bRows diff log₁)
        (rowLoop cfgOff b sheetB row aRows bRows diff log₂).diff
        (rowLoop cfgOff b sheetB row aRows bRows diff log₂).err log₁ := by
  intro aRows
  induction aRows with
  | nil =>
    intro bRows row diff log₁ log₂
    left
    simp [rowLoop, styleFailures_append, styleFailures, isStyleFailure]
  | cons ra aRows ih =>
    intro bRows row diff log₁ log₂
    cases bRows with
    | nil =>
      left
      simp [rowLoop, styleFailures_append, styleFailures, isStyleFailure]
    | cons rb bRows =>
      cases ra with
      | error e =>
        left
        simp [rowLoop, styleFailures_append, styleFailures, isStyleFailure]
      | ok aCols =>
        cases rb with
        | error e =>
          left
          simp [rowLoop, styleFailures_append, styleFailures, isStyleFailure]
        | ok bCols =>
          by_cases hlen : aCols.length = bCols.length
          · have hpre : styleFailures
                (log₁ ++ [.Next .A true, .Next .B true, .Columns .A, .Columns .B]) =
                styleFailures log₁ := by
              simp [styleFailures_append, styleFailures, isStyleFailure]
            have h1 := colLoop_outcome cfgOn b sheetB row aCols bCols 0 diff
              (log₁ ++ [.Next .A true, .Next .B true, .Columns .A, .Columns .B])
            have h2 := colLoop_plain cfgOff b sheetB row hOff aCols bCols 0 diff
              (log₂ ++ [.Next .A true, .Next .B true, .Columns .A, .Columns .B])
            simp only [rowLoop, hlen, ne_eq, not_true_eq_false, if_false]
            generalize colLoop cfgOn b sheetB row 0 aCols bCols diff
              (log₁ ++ [.Next .A true, .Next .B true, .Columns .A, .Columns .B]) = r1 at h1
            generalize colLoop cfgOff b sheetB row 0 aCols bCols diff
              (log₂ ++ [.Next .A true, .Next .B true, .Columns .A, .Columns .B]) = r2 at h2
            obtain ⟨d1, e1, l1⟩ := r1
            obtain ⟨d2, e2, l2⟩ := r2
            simp only at h2
            obtain ⟨rfl, rfl⟩ := h2
            rcases h1 with ⟨h11, h12, h13⟩ | ⟨h11, h12, ev, h13⟩
            · simp only at h11 h12 h13
              subst h11 h12
              rw [hpre] at h13
              have := ih bRows (row + 1) (diff ++ rowDiffsFrom row 0 aCols bCols) l1 l2
              unfold LoopOutcome at this ⊢
              rw [h13] at this
              simpa using this
            · simp only at h11 h12 h13
              rw [hpre] at h13
              cases e1 with
              | none => exact absurd rfl h11
              | some e => right; exact ⟨by simp, rfl, ev, h13⟩
          · left
            simp [rowLoop, hlen, styleFailures_append, styleFailures, isStyleFailure]

theorem compareSheets_plain_outcome (cfgOn cfgOff : Config) (a b : File)
    (sheetA sheetB : String) (log : List Event) (hOff : cfgOff.shouldColorSheet = false) :
    LoopOutcome (compareSheets cfgOn a b sheetA sheetB log)
      (compareSheets cfgOff a b sheetA sheetB log).diff
      (compareSheets cfgOff a b sheetA sheetB log).err log := by
  unfold compareSheets
  cases a.GetSheetDimension sheetA with
  | error e => left; simp [styleFailures_append, styleFailures, isStyleFailure]
  | ok aDim =>
    cases b.GetSheetDimension sheetB with
    | error e => left; simp [styleFailures_append, styleFailures, isStyleFailure]
    | ok bDim =>
      simp only
      by_cases hd : aDim = bDim
      · simp only [hd, ne_eq, not_true_eq_false, if_false]
        cases a.Rows sheetA with
        | error e => left; simp [styleFailures_append, styleFailures, isStyleFailure]
        | ok aRows =>
          cases b.Rows sheetB with
          | error e => left; simp [styleFailures_append, styleFailures, isStyleFailure]
          | ok bRows =>
            simp only
            have := rowLoop_plain_outcome cfgOn cfgOff b sheetB hOff aRows bRows 0 []
              (log ++ [.GetSheetDimension .A sheetA, .GetSheetDimension .B sheetB,
                .Rows .A sheetA, .Rows .B sheetB])
              (log ++ [.GetSheetDimension .A sheetA, .GetSheetDimension .B sheetB,
                .Rows .A sheetA, .Rows .B sheetB])
            unfold LoopOutcome at this ⊢
            simpa [styleFailures_append, styleFailures, isStyleFailure] using this
      · left
        simp [hd, styleFailures_append, styleFailures, isStyleFailure]

/-- C10: with highlighting enabled, a successful `compareSheets` call makes
exactly these style calls, in this order: for each returned record, in the
order of the list, one `NewStyle` on B with the pattern fill of the configured
color followed by one `SetCellStyle` on B, in sheet `sheetB`, at the cell of the
record's `Cell` field with the style just registered; no other cell is styled
and no style call is made on A. With highlighting disabled, no style call is
made, and the returned list (and error) is the same as with highlighting
enabled, whenever the enabled call succeeds or none of its style operations
fails. -/
theorem compareSheets_highlights_exactly_the_differences (cfgOn cfgOff : Config)
    (a b : File) (sheetA sheetB : String) (log : List Event)
    (hOn : cfgOn.shouldColorSheet = true) (hOff : cfgOff.shouldColorSheet = false) :
    ((compareSheets cfgOn a b sheetA sheetB log).err = none →
      ∃ ids : List Int,
        ids.length = (compareSheets cfgOn a b sheetA sheetB log).diff.length ∧
        styleOps (compareSheets cfgOn a b sheetA sheetB log).log =
          styleOps log ++ ((compareSheets cfgOn a b sheetA sheetB log).diff.zip ids).flatMap
            (highlightCalls cfgOn.color sheetB)) ∧
    styleOps (compareSheets cfgOff a b sheetA sheetB log).log = styleOps log ∧
    ((compareSheets cfgOn a b sheetA sheetB log).err = none ∨
        styleFailures (compareSheets cfgOn a b sheetA sheetB log).log = styleFailures log →
      (compareSheets cfgOff a b sheetA sheetB log).diff =
        (compareSheets cfgOn a b sheetA sheetB log).diff ∧
      (compareSheets cfgOff a b sheetA sheetB log).err =
        (compareSheets cfgOn a b sheetA sheetB log).err) := by
  refine ⟨compareSheets_styleOps cfgOn a b sheetA sheetB log hOn,
    compareSheets_plain_styleOps cfgOff a b sheetA sheetB log hOff, ?_⟩
  intro h
  have hout := compareSheets_plain_outcome cfgOn cfgOff a b sheetA sheetB log hOff
  rcases hout with ⟨h1, h2, -⟩ | ⟨h1, -, ev, h3⟩
  · exact ⟨h2.symm, h1.symm⟩
  · rcases h with h | h
    · exact absurd h h1
    · rw [h] at h3
      have := congrArg List.length h3
      simp at this

theorem compareSheets_highlights_exactly_the_differences_witness :
    (colorCfg.shouldColorSheet = true ∧ plainCfg.shouldColorSheet = false ∧
      (compareSheets colorCfg (sheetFile "A1:B2" [["1", "2"], ["3", "4"]])
        (sheetFile "A1:B2" [["1", "9"], ["3", "5"]]) "Sheet1" "Sheet1" []).err = none) ∧
    styleOps (compareSheets colorCfg (sheetFile "A1:B2" [["1", "2"], ["3", "4"]])
        (sheetFile "A1:B2" [["1", "9"], ["3", "5"]]) "Sheet1" "Sheet1" []).log =
      [.NewStyle .B { Fill := { Typ := "pattern", Color := ["E0EBF5"], Pattern := 1 } }
          (.inr 8),
       .SetCellStyle .B "Sheet1" "B1" "B1" 8 none,
       .NewStyle .B { Fill := { Typ := "pattern", Color := ["E0EBF5"], Pattern := 1 } }
          (.inr 14),
       .SetCellStyle .B "Sheet1" "B2" "B2" 14 none] ∧
    (∃ ids : List Int,
      ids.length = (compareSheets colorCfg (sheetFile "A1:B2" [["1", "2"], ["3", "4"]])
        (sheetFile "A1:B2" [["1", "9"], ["3", "5"]]) "Sheet1" "Sheet1" []).diff.length ∧
      styleOps (compareSheets colorCfg (sheetFile "A1:B2" [["1", "2"], ["3", "4"]])
        (sheetFile "A1:B2" [["1", "9"], ["3", "5"]]) "Sheet1" "Sheet1" []).log =
        styleOps [] ++ ((compareSheets colorCfg (sheetFile "A1:B2" [["1", "2"], ["3", "4"]])
          (sheetFile "A1:B2" [["1", "9"], ["3", "5"]]) "Sheet1" "Sheet1" []).diff.zip
            ids).flatMap (highlightCalls colorCfg.color "Sheet1")) ∧
    (compareSheets plainCfg (sheetFile "A1:B2" [["1", "2"], ["3", "4"]])
        (sheetFile "A1:B2" [["1", "9"], ["3", "5"]]) "Sheet1" "Sheet1" []).diff =
      (compareSheets colorCfg (sheetFile "A1:B2" [["1", "2"], ["3", "4"]])
        (sheetFile "A1:B2" [["1", "9"], ["3", "5"]]) "Sheet1" "Sheet1" []).diff :=
  ⟨⟨rfl, rfl, by decide⟩, by decide,
    (compareSheets_highlights_exactly_the_differences colorCfg plainCfg
      (sheetFile "A1:B2" [["1", "2"], ["3", "4"]]) (sheetFile "A1:B2" [["1", "9"], ["3", "5"]])
      "Sheet1" "Sheet1" [] rfl rfl).1 (by decide),
    ((compareSheets_highlights_exactly_the_differences colorCfg plainCfg
      (sheetFile "A1:B2" [["1", "2"], ["3", "4"]]) (sheetFile "A1:B2" [["1", "9"], ["3", "5"]])
      "Sheet1" "Sheet1" [] rfl rfl).2.2 (Or.inl (by decide))).1⟩
end ExcelCompare
